import Mathlib

/-!
# Verification of the SEA M200/M300 file reader (`spifpy/input/sea.py`)

This file is a shallow embedding, in Lean 4, of the directory-driven buffer
scanner and type-dispatched dataset decoder of `src/spifpy/input/sea.py`,
together with theorems settling the frozen claims C1 .. C10 about it.

Modelling conventions:
* the raw file is a `List Nat` of bytes (each byte below 256 in well-formed
  inputs); reads use `List.getD` guarded by the same explicit length checks
  that Python's `struct.unpack_from` performs;
* Python integers are `Nat` (all the quantities involved are non-negative);
* fallible operations return `Except PyError _`, one constructor per Python
  exception class that can escape the modelled code;
* the generator `SEAFile._raw_buffers` is modelled as a step function on an
  explicit scan state plus a fuel-driven driver, so that non-termination of
  the Python `while` loop is expressible as "every fuel runs out";
* Python's float division in `datetime_from_seatime` is modelled exactly, as
  correctly rounded IEEE-754 binary64 arithmetic over `ℚ` (round to nearest,
  ties to even; all quantities here are far inside the normal range).
-/

set_option autoImplicit false
set_option maxRecDepth 10000

namespace Spifpy

/-- One byte of the modelled file: `f[i]` with default 0.  Every use is
guarded by an explicit bounds check mirroring the source, so the default is
never observable. -/
def byteAt (f : List Nat) (i : Nat) : Nat := f.getD i 0

/-- Little-endian 16-bit read at offset `i` (struct format `<H`). -/
def readU16 (f : List Nat) (i : Nat) : Nat := byteAt f i + 256 * byteAt f (i + 1)

/-- The fixed 16-byte directory entry of the SEA format
(`class DirectoryEntry`, struct format `<HHHHHBBBBH`). -/
structure DirectoryEntry where
  tag_number : Nat
  data_offset : Nat
  number_of_bytes : Nat
  samples : Nat
  bytes_per_sample : Nat
  typ : Nat
  parameter1 : Nat
  parameter2 : Nat
  parameter3 : Nat
  address : Nat
deriving DecidableEq, Repr, Inhabited

/-- `DirectoryEntry.SIZE` in the source. -/
def entrySIZE : Nat := 16

/-- `DirectoryEntry.new_from_raw_data`: unpack a directory entry at byte
offset `start`; `none` models the `IncompleteDirectoryEntryException` raised
when fewer than 16 bytes remain. -/
def readDirEntry (f : List Nat) (start : Nat) : Option DirectoryEntry :=
  if start + 16 ≤ f.length then
    some { tag_number := readU16 f start
           data_offset := readU16 f (start + 2)
           number_of_bytes := readU16 f (start + 4)
           samples := readU16 f (start + 6)
           bytes_per_sample := readU16 f (start + 8)
           typ := byteAt f (start + 10)
           parameter1 := byteAt f (start + 11)
           parameter2 := byteAt f (start + 12)
           parameter3 := byteAt f (start + 13)
           address := readU16 f (start + 14) }
  else none

/-- The attributes of `DirectoryEntry`, used by the whitelist filter of
`_raw_buffers` / `iter_buffers`. -/
inductive Attr where
  | tag_number | data_offset | number_of_bytes | samples | bytes_per_sample
  | typ | parameter1 | parameter2 | parameter3 | address
deriving DecidableEq, Repr

/-- `getattr(dir_entry, attr)` for the ten `DirectoryEntry` attributes. -/
def getAttr (d : DirectoryEntry) : Attr → Nat
  | .tag_number => d.tag_number
  | .data_offset => d.data_offset
  | .number_of_bytes => d.number_of_bytes
  | .samples => d.samples
  | .bytes_per_sample => d.bytes_per_sample
  | .typ => d.typ
  | .parameter1 => d.parameter1
  | .parameter2 => d.parameter2
  | .parameter3 => d.parameter3
  | .address => d.address

/-- A validated filter mapping: attribute, list of accepted values (a Python
dict in insertion order). -/
abbrev Filters := List (Attr × List Nat)

/-- The inner `for attr in filters.keys(): if getattr(dir_entry, attr) in
filters[attr]: ...` membership test of the scanner (the `break` makes it an
"any" over the constraints). -/
def matchesFilter (fl : Filters) (d : DirectoryEntry) : Bool :=
  fl.any fun p => p.2.contains (getAttr d p.1)

/-- Python slice `f[a:b]` (for `a ≤ b` it is the bytes `a ≤ i < b`, clamped
to the list; for `b < a` it is empty — `Nat` subtraction gives exactly
that). -/
def pySlice (f : List Nat) (a b : Nat) : List Nat := (f.drop a).take (b - a)

/-- The first-record signature required by the resynchronization loop of
`_raw_buffers` (`tag_number == TIME_TAG and number_of_bytes == 36 and
samples == 2 and bytes_per_sample == 18`). -/
abbrev isTimeSig (d : DirectoryEntry) : Prop :=
  d.tag_number = 0 ∧ d.number_of_bytes = 36 ∧ d.samples = 2 ∧ d.bytes_per_sample = 18

/-- The mutable local state of the `while` loop of `SEAFile._raw_buffers`:
`cursor`, `dir_base`, `dir_entries`, `drop_buffer`, `first_tag`
(`reached_end` is encoded in the step result, `search_time`/`prev_cursor`
only feed diagnostics). -/
structure ScanState where
  cursor : Nat
  dirBase : Nat
  dirEntries : List DirectoryEntry
  dropBuffer : Bool
  firstTag : Bool
deriving DecidableEq, Repr

/-- One `(dir_entries, raw byte slice)` pair yielded by `_raw_buffers`. -/
abbrev Emit := List DirectoryEntry × List Nat

/-- Result of one iteration of the `while` loop of `_raw_buffers`:
either the `UnexpectedEndOfFileException` path, or a normal iteration that
yields zero, one or two buffers, reports whether `reached_end` became true,
and gives the next state. -/
inductive StepResult where
  | fileError : StepResult
  | step (emits : List Emit) (reachedEnd : Bool) (next : ScanState) : StepResult
deriving DecidableEq, Repr

/-- One iteration of the `while not reached_end` loop of
`SEAFile._raw_buffers`, translated branch by branch:

* read a `DirectoryEntry` at `cursor` (16 bytes; too few ⇒ exception);
* `first_tag` resynchronization: on a signature match clear `first_tag`
  (the cursor is *not* advanced, so the same record is read again by the
  next iteration and appended a second time); on a mismatch advance the
  cursor by one byte and reset `dir_base` and the record list;
* otherwise dispatch on `tag_number`: `NEXT_TAG` (999) jumps the cursor to
  `dir_base + data_offset`, yields the buffer unless dropped, resets the
  per-buffer state and re-arms `first_tag`; `LAST_TAG` (65535) yields
  `f[dir_base:]` and sets `reached_end`; every other tag falls through;
* the filter loop then runs (it can clear `drop_buffer`, for the *next*
  buffer in the `NEXT` case), the cursor advances 16 bytes unless the tag
  was `NEXT`, and the end-of-file guard
  `cursor >= len(contents) - 16` may yield the tail and set `reached_end`
  (after a successful read `len ≥ 16`, so the guard is `len ≤ cursor + 16`). -/
def scanStep (f : List Nat) (fl : Filters) (s : ScanState) : StepResult :=
  match readDirEntry f s.cursor with
  | none => .fileError
  | some d =>
    let entries := s.dirEntries ++ [d]
    if s.firstTag then
      if isTimeSig d then
        let s1 : ScanState :=
          { cursor := s.cursor, dirBase := s.dirBase, dirEntries := entries
            dropBuffer := s.dropBuffer, firstTag := false }
        if f.length ≤ s.cursor + 16 then
          .step [(entries, f.drop s.dirBase)] true s1
        else
          .step [] false s1
      else
        let c := s.cursor + 1
        let s1 : ScanState :=
          { cursor := c, dirBase := c, dirEntries := []
            dropBuffer := s.dropBuffer, firstTag := true }
        if f.length ≤ c + 16 then
          .step [([], f.drop c)] true s1
        else
          .step [] false s1
    else
      if d.tag_number = 999 then
        let c := s.dirBase + d.data_offset
        let emits : List Emit :=
          if s.dropBuffer then [] else [(entries, pySlice f s.dirBase c)]
        let drop1 := !fl.isEmpty
        let drop2 := if matchesFilter fl d then false else drop1
        let s1 : ScanState :=
          { cursor := c, dirBase := c, dirEntries := []
            dropBuffer := drop2, firstTag := true }
        if f.length ≤ c + 16 then
          .step (emits ++ [([], f.drop c)]) true s1
        else
          .step emits false s1
      else
        let isLast := d.tag_number = 65535
        let emits : List Emit :=
          if isLast then [(entries, f.drop s.dirBase)] else []
        let drop1 := if matchesFilter fl d then false else s.dropBuffer
        let c := s.cursor + 16
        let s1 : ScanState :=
          { cursor := c, dirBase := s.dirBase, dirEntries := entries
            dropBuffer := drop1, firstTag := false }
        if f.length ≤ c + 16 then
          .step (emits ++ [(entries, f.drop s.dirBase)]) true s1
        else
          .step emits (decide isLast) s1

/-- Outcome of driving `_raw_buffers` for a bounded number of loop
iterations: `outOfFuel` means the loop had not finished (the real generator
would still be running), `fileError` is the end-of-file exception after the
listed buffers were yielded, `done` is normal termination. -/
inductive ScanResult where
  | outOfFuel : ScanResult
  | fileError (emitted : List Emit) : ScanResult
  | done (emitted : List Emit) : ScanResult
deriving DecidableEq, Repr

/-- Drive `scanStep` for at most `fuel` iterations, accumulating the yielded
buffers in stream order. -/
def scanLoop (f : List Nat) (fl : Filters) : Nat → ScanState → List Emit → ScanResult
  | 0, _, _ => .outOfFuel
  | fuel + 1, s, acc =>
    match scanStep f fl s with
    | .fileError => .fileError acc
    | .step es true _ => .done (acc ++ es)
    | .step es false s1 => scanLoop f fl fuel s1 (acc ++ es)

/-- The initial loop state of `_raw_buffers` (`cursor = dir_base = 0`,
empty record list, `drop_buffer` true exactly when a filter was supplied,
`first_tag = True`). -/
def initState (fl : Filters) : ScanState :=
  { cursor := 0, dirBase := 0, dirEntries := [], dropBuffer := !fl.isEmpty, firstTag := true }

/-- `SEAFile._raw_buffers(filters)` run for `fuel` iterations. -/
def rawBuffers (f : List Nat) (fl : Filters) (fuel : Nat) : ScanResult :=
  scanLoop f fl fuel (initState fl) []

/-- The Python generator terminates (normally or with an exception) when
iterated to exhaustion. -/
def scanTerminates (f : List Nat) (fl : Filters) : Prop :=
  ∃ fuel, rawBuffers f fl fuel ≠ .outOfFuel

/-! ## Python exceptions that can escape the modelled code -/

/-- The Python exceptions that the modelled code can raise:
`ValueError` (the fatal payload-overrun `raise ValueError` in
`_read_dataset`, and `datetime`'s range check), `struct.error` (an
`unpack_from` with too few bytes), `RuntimeError` (mutating a dict while
iterating over its keys view, see `removeInvalidFilters`), and
`ZeroDivisionError` (`max_sys_freq == 0` in `datetime_from_seatime`). -/
inductive PyError where
  | valueError | structError | runtimeError | zeroDivisionError
deriving DecidableEq, Repr

/-! ## The acquisition-type dispatch of `SEAFile._read_dataset` -/

/-- Primitive struct element formats used by `_read_dataset`
(`b B h H I Q` in the source's format strings). -/
inductive Elem where
  | i8 | u8 | i16 | u16 | u32 | u64
deriving DecidableEq, Repr

/-- `struct.calcsize` of one element (little-endian formats have no
padding). -/
def elemSize : Elem → Nat
  | .i8 => 1
  | .u8 => 1
  | .i16 => 2
  | .u16 => 2
  | .u32 => 4
  | .u64 => 8

/-- `struct.calcsize` of a format string. -/
def structSize (l : List Elem) : Nat := (l.map elemSize).sum

/-- The per-sample format string (`sample_string`) chosen by the
acquisition-type dispatch of `_read_dataset`; `none` is the `else` branch
(unknown acquisition type).  Type 66 computes `num_slices =
bytes_per_sample / 16` (Python 3 true division, a float), and
`'QQ' * num_slices` always raises `TypeError` (str times float), so the
`except TypeError` fallback `'QQ' * math.ceil(num_slices)` is what actually
runs: `2 * ⌈bps/16⌉` unsigned 64-bit ints. -/
def sampleLayout (typ bps : Nat) : Option (List Elem) :=
  if typ = 1 then some [.i16]
  else if typ = 2 then some (List.replicate 20 .u16 ++ [.i8, .i8])
  else if typ = 5 then some (List.replicate 1024 .u32)
  else if typ = 6 then some [.u16, .u16]
  else if typ = 7 then some [.u32]
  else if typ = 8 then some [.u32]
  else if typ = 9 then some [.u16]
  else if typ = 10 then some [.u16]
  else if typ = 11 then some (List.replicate 8 .u16)
  else if typ = 35 then some [.i16]
  else if typ = 66 then some (List.replicate (2 * ((bps + 15) / 16)) .u64)
  else if typ = 78 then some (List.replicate 4096 .u8 ++ [.u16])
  else if typ = 85 then some (List.replicate bps .u8)
  else if typ = 255 then some (List.replicate bps .u8)
  else none

/-- The recoverable diagnostics (`warnings.warn` calls) of
`_read_dataset`. -/
inductive SEAWarning where
  | greyMisaligned | sizeMismatch | unknownType
deriving DecidableEq, Repr

/-- Decode one little-endian element at byte offset `off` (signed formats
use two's complement, as `struct` does). -/
def decodeElem (raw : List Nat) (off : Nat) : Elem → Int
  | .u8 => byteAt raw off
  | .i8 =>
    let v := byteAt raw off
    if v < 128 then (v : Int) else (v : Int) - 256
  | .u16 => readU16 raw off
  | .i16 =>
    let v := readU16 raw off
    if v < 32768 then (v : Int) else (v : Int) - 65536
  | .u32 =>
    byteAt raw off + 256 * byteAt raw (off + 1) + 65536 * byteAt raw (off + 2)
      + 16777216 * byteAt raw (off + 3)
  | .u64 =>
    byteAt raw off + 256 * byteAt raw (off + 1) + 65536 * byteAt raw (off + 2)
      + 16777216 * byteAt raw (off + 3) + 4294967296 * byteAt raw (off + 4)
      + 1099511627776 * byteAt raw (off + 5) + 281474976710656 * byteAt raw (off + 6)
      + 72057594037927936 * byteAt raw (off + 7)

/-- Decode a sequence of elements at consecutive offsets. -/
def decodeElems (raw : List Nat) (off : Nat) : List Elem → List Int
  | [] => []
  | e :: es => decodeElem raw off e :: decodeElems raw (off + elemSize e) es

/-- `SEAFile._read_dataset_raw`: `struct.unpack_from` of the full dataset
format at `data_offset`; `struct.error` when fewer bytes remain than the
format needs. -/
def unpackDataset (d : DirectoryEntry) (raw : List Nat) (elems : List Elem)
    (ws : List SEAWarning) : Except PyError (List SEAWarning × List Int) :=
  if d.data_offset + structSize elems ≤ raw.length then
    .ok (ws, decodeElems raw d.data_offset elems)
  else
    .error .structError

/-- `SEAFile._read_dataset`: pick the per-sample layout by acquisition type;
for known types run the two size checks — `number_of_bytes <
expected_size` is only a warning **and skips the overrun check (the
`elif`)**, while `data_offset + expected_size > len(raw_buffer)` is the
fatal `raise ValueError`; then unpack `sample_string * samples` (for an
unknown type, `'B' * number_of_bytes`, with no size checks at all). -/
def readDataset (d : DirectoryEntry) (raw : List Nat) :
    Except PyError (List SEAWarning × List Int) :=
  match sampleLayout d.typ d.bytes_per_sample with
  | some elems =>
    let ws : List SEAWarning :=
      if d.typ = 66 ∧ d.bytes_per_sample % 16 ≠ 0 then [.greyMisaligned] else []
    let expected := d.samples * d.bytes_per_sample
    if d.number_of_bytes < expected then
      unpackDataset d raw ((List.replicate d.samples elems).flatten) (ws ++ [.sizeMismatch])
    else if raw.length < d.data_offset + expected then
      .error .valueError
    else
      unpackDataset d raw ((List.replicate d.samples elems).flatten) ws
  | none =>
    unpackDataset d raw (List.replicate d.number_of_bytes .u8) [.unknownType]

/-! ## Time records, datasets and the `Buffer` container -/

/-- The nine unsigned 16-bit fields of an SEA time record
(`SEATime` named tuple). -/
structure SEATime where
  year : Nat
  month : Nat
  day : Nat
  hour : Nat
  minute : Nat
  second : Nat
  fraction_of_second : Nat
  max_sys_freq : Nat
  buffer_life_span : Nat
deriving DecidableEq, Repr

/-- `SEA_TIME_STRUCT.unpack_from(raw_buffer, offset)`: nine `<H` fields;
`struct.error` when fewer than 18 bytes remain. -/
def unpackSeaTime (raw : List Nat) (off : Nat) : Except PyError SEATime :=
  if off + 18 ≤ raw.length then
    .ok { year := readU16 raw off, month := readU16 raw (off + 2)
          day := readU16 raw (off + 4), hour := readU16 raw (off + 6)
          minute := readU16 raw (off + 8), second := readU16 raw (off + 10)
          fraction_of_second := readU16 raw (off + 12)
          max_sys_freq := readU16 raw (off + 14)
          buffer_life_span := readU16 raw (off + 16) }
  else .error .structError

/-- `SEAFile._unpack_string_data`: `samples` consecutive strings of
`bytes_per_sample` bytes at `data_offset`. -/
def unpackStringData (raw : List Nat) (d : DirectoryEntry) :
    Except PyError (List (List Nat)) :=
  if d.data_offset + d.samples * d.bytes_per_sample ≤ raw.length then
    .ok ((List.range d.samples).map fun i =>
      (raw.drop (d.data_offset + i * d.bytes_per_sample)).take d.bytes_per_sample)
  else .error .structError

/-- The decoded payload stored against one directory entry in a `Buffer`:
a time record (TIME tag), a tuple of byte strings (FILENAME / FILEDATA),
or a tuple of integers (ordinary data, `_read_dataset`). -/
inductive Dataset where
  | time (t : SEATime)
  | strs (ss : List (List Nat))
  | ints (vs : List Int)
deriving DecidableEq, Repr

/-- Insert/overwrite a key in a Python dict modelled as an insertion-ordered
association list with unique keys. -/
def dictSet {α : Type} : List (Nat × α) → Nat → α → List (Nat × α)
  | [], k, v => [(k, v)]
  | (k0, v0) :: rest, k, v =>
    if k0 = k then (k0, v) :: rest else (k0, v0) :: dictSet rest k v

/-- Dict lookup (`d[k]`, as an `Option` instead of `KeyError`). -/
def dictGet {α : Type} : List (Nat × α) → Nat → Option α
  | [], _ => none
  | (k0, v0) :: rest, k => if k0 = k then some v0 else dictGet rest k

/-- The `try: d[k].append(v) except KeyError: d[k] = [v]` idiom of
`Buffer.add_dataset` and `SEAFile._add_tag`. -/
def dictAppend {α : Type} (l : List (Nat × List α)) (k : Nat) (v : α) :
    List (Nat × List α) :=
  match dictGet l k with
  | some vs => dictSet l k (vs ++ [v])
  | none => dictSet l k [v]

/-- `class Buffer`: the four lookup dicts. -/
structure Buffer where
  dir_entries_by_tag_number : List (Nat × DirectoryEntry) := []
  datasets_by_tag_number : List (Nat × Dataset) := []
  dir_entries_by_typ : List (Nat × List DirectoryEntry) := []
  datasets_by_typ : List (Nat × List Dataset) := []
deriving DecidableEq, Repr, Inhabited

/-- `Buffer.add_dataset`: always (over)write the two `tag_number`-indexed
dicts; for every tag other than `TIME_TAG` (0) also append to the two
`typ`-indexed dicts.  The source raises no error and emits no warning on a
duplicate `tag_number` (the dict entry is silently overwritten). -/
def Buffer.add_dataset (b : Buffer) (d : DirectoryEntry) (ds : Dataset) : Buffer :=
  let b1 : Buffer :=
    { b with
      dir_entries_by_tag_number := dictSet b.dir_entries_by_tag_number d.tag_number d
      datasets_by_tag_number := dictSet b.datasets_by_tag_number d.tag_number ds }
  if d.tag_number = 0 then b1
  else
    { b1 with
      dir_entries_by_typ := dictAppend b1.dir_entries_by_typ d.typ d
      datasets_by_typ := dictAppend b1.datasets_by_typ d.typ ds }

/-- `Buffer.get_dataset_by_tag_number` (as an `Option`). -/
def Buffer.get_dataset_by_tag_number (b : Buffer) (t : Nat) : Option Dataset :=
  dictGet b.datasets_by_tag_number t

/-- `Buffer.get_dir_entry_by_tag_number` (as an `Option`). -/
def Buffer.get_dir_entry_by_tag_number (b : Buffer) (t : Nat) : Option DirectoryEntry :=
  dictGet b.dir_entries_by_tag_number t

/-- `Buffer.get_datasets_by_typ` (as an `Option`). -/
def Buffer.get_datasets_by_typ (b : Buffer) (t : Nat) : Option (List Dataset) :=
  dictGet b.datasets_by_typ t

/-- `Buffer.get_dir_entries_by_typ` (as an `Option`). -/
def Buffer.get_dir_entries_by_typ (b : Buffer) (t : Nat) : Option (List DirectoryEntry) :=
  dictGet b.dir_entries_by_typ t

/-! ## `SEAFile.iter_buffers` -/

/-- The `elif filters:` arm of `iter_buffers`: walk the filter constraints
in order; for each constraint the record matches, call `_read_dataset` and
`add_dataset` **again** (one add per matching constraint) and clear the
discard flag.  Returns the updated buffer and whether any constraint
matched. -/
def filterAdds (e : DirectoryEntry) (raw : List Nat) :
    Filters → Buffer → Except PyError (Buffer × Bool)
  | [], b => .ok (b, false)
  | (a, vs) :: rest, b =>
    if vs.contains (getAttr e a) then
      match readDataset e raw with
      | .error err => .error err
      | .ok (_, ints) =>
        match filterAdds e raw rest (b.add_dataset e (.ints ints)) with
        | .error err => .error err
        | .ok (b2, _) => .ok (b2, true)
    else filterAdds e raw rest b

/-- The body of the `for dir_entry in dir_entries` loop of
`iter_buffers`, for one raw buffer.  Returns `(yielded buffer?, saw LAST)`:
`NEXT_TAG` breaks out of the loop yielding the accumulated buffer unless it
is being discarded; `LAST_TAG` returns from the whole generator;
`COMMAND`/`ERROR`/`SAME` tags and secondary tags mark the buffer discarded;
`TIME`, `FILENAME`/`FILEDATA` decode unconditionally; ordinary records
decode through the filter arm when a filter is active, else decode always. -/
def processEntries (fl : Filters) (sec : List Nat) (raw : List Nat) :
    List DirectoryEntry → Buffer → Bool → Except PyError (Option Buffer × Bool)
  | [], _, _ => .ok (none, false)
  | e :: rest, b, discard =>
    if e.tag_number = 0 then
      match unpackSeaTime raw e.data_offset with
      | .error err => .error err
      | .ok t => processEntries fl sec raw rest (b.add_dataset e (.time t)) discard
    else if e.tag_number = 999 then
      .ok (if discard then none else some b, false)
    else if 65000 ≤ e.tag_number ∧ e.tag_number ≤ 65529 then
      processEntries fl sec raw rest b discard
    else if e.tag_number = 65530 ∨ e.tag_number = 65531 then
      match unpackStringData raw e with
      | .error err => .error err
      | .ok ss => processEntries fl sec raw rest (b.add_dataset e (.strs ss)) discard
    else if e.tag_number = 65532 ∨ e.tag_number = 65533 ∨ e.tag_number = 65534 then
      processEntries fl sec raw rest b true
    else if e.tag_number = 65535 then
      .ok (none, true)
    else if sec.contains e.tag_number then
      processEntries fl sec raw rest b true
    else if fl.isEmpty then
      match readDataset e raw with
      | .error err => .error err
      | .ok (_, ints) =>
        processEntries fl sec raw rest (b.add_dataset e (.ints ints)) discard
    else
      match filterAdds e raw fl b with
      | .error err => .error err
      | .ok (b2, matched) =>
        processEntries fl sec raw rest b2 (if matched then false else discard)

/-- The outer `for dir_entries, raw_buffer in self._raw_buffers(filters)`
loop of `iter_buffers`, over the buffers the scanner yielded. -/
def iterFromEmits (fl : Filters) (sec : List Nat) :
    List Emit → Except PyError (List Buffer)
  | [] => .ok []
  | (es, raw) :: rest =>
    match processEntries fl sec raw es {} (!fl.isEmpty) with
    | .error err => .error err
    | .ok (_, true) => .ok []
    | .ok (some b, false) =>
      match iterFromEmits fl sec rest with
      | .error err => .error err
      | .ok bs => .ok (b :: bs)
    | .ok (none, false) => iterFromEmits fl sec rest

/-- `SEAFile.iter_buffers(filters)` on a file whose raw scan finishes
within `fuel` iterations (`none` when it does not; the Python generator is
lazy, but on every input used here the raw scan runs to normal completion,
so eager composition agrees with it). -/
def iterBuffers (f : List Nat) (fl : Filters) (sec : List Nat) (fuel : Nat) :
    Option (Except PyError (List Buffer)) :=
  match scanLoop f fl fuel (initState fl) [] with
  | .done es => some (iterFromEmits fl sec es)
  | _ => none

/-! ## Filter-name validation (`_raw_buffers` lines 390–401) -/

/-- The attribute names of a `DirectoryEntry` instance
(what `hasattr(dummy_dir_entry, attr_name)` tests). -/
def attrOfString (s : String) : Option Attr :=
  if s = "tag_number" then some .tag_number
  else if s = "data_offset" then some .data_offset
  else if s = "number_of_bytes" then some .number_of_bytes
  else if s = "samples" then some .samples
  else if s = "bytes_per_sample" then some .bytes_per_sample
  else if s = "typ" then some .typ
  else if s = "parameter1" then some .parameter1
  else if s = "parameter2" then some .parameter2
  else if s = "parameter3" then some .parameter3
  else if s = "address" then some .address
  else none

/-- The `for attr_name in filters.keys(): ... del filters[attr_name]`
clean-up at the top of `_raw_buffers`.  CPython's dict key-view iterator
checks the dict's size on **every** advance, so the first `del` makes the
very next advance of the `for` loop raise
`RuntimeError: dictionary changed size during iteration` — even when the
deleted key was the last one.  Hence: if every name is a `DirectoryEntry`
attribute the dict is returned unchanged, and otherwise the scan dies with
`RuntimeError` (the warning is issued, the key is deleted, then the loop
blows up). -/
def removeInvalidFilters : List (String × List Nat) →
    Except PyError (List (String × List Nat))
  | [] => .ok []
  | (k, vs) :: rest =>
    if (attrOfString k).isSome then
      match removeInvalidFilters rest with
      | .ok r => .ok ((k, vs) :: r)
      | .error err => .error err
    else .error .runtimeError

/-- Convert a validated string-keyed filter dict to attribute keys. -/
def toAttrFilters (fs : List (String × List Nat)) : Filters :=
  fs.filterMap fun p => (attrOfString p.1).map fun a => (a, p.2)

/-- `SEAFile._raw_buffers` including its filter-validation preamble, from a
string-keyed filter dict as the caller supplies it. -/
def rawBuffersChecked (f : List Nat) (fs : List (String × List Nat)) (fuel : Nat) :
    Except PyError ScanResult :=
  match removeInvalidFilters fs with
  | .error err => .error err
  | .ok fs1 => .ok (scanLoop f (toAttrFilters fs1) fuel (initState (toAttrFilters fs1)) [])

/-! ## `datetime_from_seatime`: exact model of the float computation

`microsecond = int(1000000 * fraction_of_second / max_sys_freq)` uses
Python 3 true division: the two (exactly representable) integers are
divided as IEEE-754 binary64 doubles with round-to-nearest-ties-to-even,
then truncated toward zero.  We model the binary64 value by its exact
rational value; all quantities here are positive normal doubles (or zero),
far from overflow/subnormal territory, so rounding to the nearest multiple
of the ulp is the exact semantics. -/

/-- Round a rational to the nearest integer, ties to even. -/
def roundHalfEven (q : ℚ) : ℤ :=
  if q - ⌊q⌋ < 1 / 2 then ⌊q⌋
  else if 1 / 2 < q - ⌊q⌋ then ⌊q⌋ + 1
  else if Even ⌊q⌋ then ⌊q⌋ else ⌊q⌋ + 1

/-- The IEEE-754 binary64 double nearest to a non-negative rational, as an
exact rational: round to the nearest multiple of `2 ^ (⌊log₂ q⌋ - 52)`
(the ulp of `q`'s binade), ties to even.  Valid for the positive normal
range (and zero), which covers every value arising below. -/
def roundToDouble (q : ℚ) : ℚ :=
  if q ≤ 0 then 0
  else (roundHalfEven (q / 2 ^ (Int.log 2 q - 52)) : ℚ) * 2 ^ (Int.log 2 q - 52)

/-- Python 3 `a / b` on two non-negative machine integers (both below
`2^53`, hence exactly representable): the correctly rounded double
quotient. -/
def pyTrueDiv (a b : Nat) : ℚ := roundToDouble ((a : ℚ) / (b : ℚ))

/-- Python `int(x)` on a non-negative float: truncation toward zero. -/
def pyIntOfFloat (x : ℚ) : ℤ := ⌊x⌋

/-- Python `datetime` leap-year rule. -/
def isLeapYear (y : Nat) : Bool := (y % 4 == 0 && y % 100 != 0) || y % 400 == 0

/-- Days in a month, as `datetime.datetime` validates them. -/
def daysInMonth (y m : Nat) : Nat :=
  if m = 2 then (if isLeapYear y then 29 else 28)
  else if m = 4 ∨ m = 6 ∨ m = 9 ∨ m = 11 then 30
  else 31

/-- The argument validation of `datetime.datetime(year, month, day, hour,
minute, second, microsecond)`. -/
def validDatetime (y mo d h mi s μ : Nat) : Bool :=
  1 ≤ y && y ≤ 9999 && 1 ≤ mo && mo ≤ 12 && 1 ≤ d && d ≤ daysInMonth y mo &&
    h ≤ 23 && mi ≤ 59 && s ≤ 59 && μ ≤ 999999

/-- A `datetime.datetime` value (the fields the code constructs). -/
structure PyDateTime where
  year : Nat
  month : Nat
  day : Nat
  hour : Nat
  minute : Nat
  second : Nat
  microsecond : Nat
deriving DecidableEq, Repr

/-- `datetime_from_seatime`: `microsecond = int(1000000 *
fraction_of_second / max_sys_freq)` (float division, then truncation), then
`datetime.datetime(...)`, whose `ValueError` on an invalid calendar tuple
is re-raised. -/
def datetime_from_seatime (t : SEATime) : Except PyError PyDateTime :=
  if t.max_sys_freq = 0 then .error .zeroDivisionError
  else
    let μ : Nat := (pyIntOfFloat (pyTrueDiv (1000000 * t.fraction_of_second) t.max_sys_freq)).toNat
    if validDatetime t.year t.month t.day t.hour t.minute t.second μ then
      .ok { year := t.year, month := t.month, day := t.day, hour := t.hour
            minute := t.minute, second := t.second, microsecond := μ }
    else .error .valueError

/-! ## Synthetic files for the claims about the scanner

Encoders for directory entries and for the segment layout of the spec's
testable property (claim C2): a file is a sequence of `NEXT`-terminated
segments followed by a `LAST`-terminated segment; each segment is a valid
first time record, further directory entries, the terminator entry, and
payload bytes. -/

/-- Little-endian encoding of a 16-bit field. -/
def encodeU16 (n : Nat) : List Nat := [n % 256, n / 256 % 256]

/-- The 16-byte encoding of a directory entry (struct `<HHHHHBBBBH`). -/
def encodeEntry (e : DirectoryEntry) : List Nat :=
  encodeU16 e.tag_number ++ encodeU16 e.data_offset ++ encodeU16 e.number_of_bytes ++
    encodeU16 e.samples ++ encodeU16 e.bytes_per_sample ++
    [e.typ % 256, e.parameter1 % 256, e.parameter2 % 256, e.parameter3 % 256] ++
    encodeU16 e.address

/-- A first record matching the resynchronization signature
(`tag_number = TIME`, `number_of_bytes = 36`, `samples = 2`,
`bytes_per_sample = 18`, `address = 0xAA55`). -/
def timeEntry : DirectoryEntry :=
  { tag_number := 0, data_offset := 0, number_of_bytes := 36, samples := 2
    bytes_per_sample := 18, typ := 0, parameter1 := 0, parameter2 := 0
    parameter3 := 0, address := 43605 }

/-- A `NEXT` directory entry whose `data_offset` is the buffer length. -/
def nextEntry (off : Nat) : DirectoryEntry :=
  { tag_number := 999, data_offset := off, number_of_bytes := 0, samples := 0
    bytes_per_sample := 0, typ := 0, parameter1 := 0, parameter2 := 0
    parameter3 := 0, address := 0 }

/-- A `LAST` directory entry. -/
def lastEntry : DirectoryEntry :=
  { tag_number := 65535, data_offset := 0, number_of_bytes := 0, samples := 0
    bytes_per_sample := 0, typ := 0, parameter1 := 0, parameter2 := 0
    parameter3 := 0, address := 0 }

/-- One segment of a synthetic file: the directory entries between the
leading time record and the terminator, and the payload bytes after the
terminator entry. -/
structure Seg where
  mids : List DirectoryEntry
  payload : List Nat
deriving Repr

/-- Total byte length of a `NEXT`-terminated segment: time entry + mid
entries + `NEXT` entry + payload. -/
def segLen (s : Seg) : Nat := 16 * (2 + s.mids.length) + s.payload.length

/-- The encoded mid entries of a segment. -/
def midsBytes (ms : List DirectoryEntry) : List Nat := (ms.map encodeEntry).flatten

/-- The bytes of a `NEXT`-terminated segment (the `NEXT` record's
`data_offset` is the whole segment length, so the scanner's jump lands on
the next segment). -/
def segBytes (s : Seg) : List Nat :=
  encodeEntry timeEntry ++ midsBytes s.mids ++ encodeEntry (nextEntry (segLen s)) ++ s.payload

/-- The bytes of the final, `LAST`-terminated segment. -/
def lastSegBytes (s : Seg) : List Nat :=
  encodeEntry timeEntry ++ midsBytes s.mids ++ encodeEntry lastEntry ++ s.payload

/-- A synthetic file: `NEXT`-terminated segments, then the `LAST`-terminated
segment. -/
def mkFile (segs : List Seg) (fin : Seg) : List Nat :=
  (segs.map segBytes).flatten ++ lastSegBytes fin

/-- The directory-entry list the scanner accumulates for a `NEXT`-terminated
segment (the signature record is appended twice: once by the `first_tag`
match, which does not advance the cursor, and once by the re-read). -/
def segEntries (s : Seg) : List DirectoryEntry :=
  timeEntry :: timeEntry :: (s.mids ++ [nextEntry (segLen s)])

/-- Likewise for the final segment when its `LAST` entry is reached. -/
def lastSegEntries (s : Seg) : List DirectoryEntry :=
  timeEntry :: timeEntry :: (s.mids ++ [lastEntry])

/-- All fields of the entry fit their struct widths (so that decoding its
encoding gives it back). -/
abbrev WFEntry (e : DirectoryEntry) : Prop :=
  e.tag_number < 65536 ∧ e.data_offset < 65536 ∧ e.number_of_bytes < 65536 ∧
    e.samples < 65536 ∧ e.bytes_per_sample < 65536 ∧ e.typ < 256 ∧
    e.parameter1 < 256 ∧ e.parameter2 < 256 ∧ e.parameter3 < 256 ∧ e.address < 65536

/-- A mid entry of a segment: well-formed and not a terminator. -/
abbrev WFMid (e : DirectoryEntry) : Prop :=
  WFEntry e ∧ e.tag_number ≠ 999 ∧ e.tag_number ≠ 65535

/-- Well-formedness of a `NEXT`-terminated segment: terminator-free,
in-range mid entries, and a segment short enough for its length to fit the
`NEXT` record's 16-bit `data_offset`. -/
abbrev WFSeg (s : Seg) : Prop :=
  (∀ e ∈ s.mids, WFMid e) ∧ segLen s < 65536

/-- Well-formedness of the final segment (its `LAST` entry carries no
offset, so only the mid entries are constrained). -/
abbrev WFFin (s : Seg) : Prop := ∀ e ∈ s.mids, WFMid e

/-- What `_raw_buffers` emits for the final segment, as a function of the
payload length `pl` after the `LAST` entry: with `pl = 0` the end-of-file
guard fires one dispatch step early and emits the partial record list once;
with `1 ≤ pl ≤ 16` the `LAST` branch emits the buffer and the end-of-file
guard then emits the identical pair a second time; with `17 ≤ pl` the
`LAST` branch alone emits it. -/
def finEmits (s : Seg) (bytes : List Nat) : List Emit :=
  if s.payload.length = 0 then
    [(timeEntry :: timeEntry :: s.mids, bytes)]
  else if s.payload.length ≤ 16 then
    [(lastSegEntries s, bytes), (lastSegEntries s, bytes)]
  else
    [(lastSegEntries s, bytes)]

/-- Loop iterations the scanner spends on one `NEXT`-terminated segment. -/
def segSteps (s : Seg) : Nat := s.mids.length + 3

/-- Loop iterations for a list of segments. -/
def segsSteps (segs : List Seg) : Nat := (segs.map segSteps).sum

/-! ## Further claim-support definitions -/

instance instDecEqExcept {ε α : Type} [DecidableEq ε] [DecidableEq α] :
    DecidableEq (Except ε α) := fun x y =>
  match x, y with
  | .ok a, .ok b =>
    if h : a = b then .isTrue (by rw [h]) else .isFalse fun hh => h (Except.ok.inj hh)
  | .error a, .error b =>
    if h : a = b then .isTrue (by rw [h]) else .isFalse fun hh => h (Except.error.inj hh)
  | .ok _, .error _ => .isFalse fun hh => Except.noConfusion hh
  | .error _, .ok _ => .isFalse fun hh => Except.noConfusion hh

/-- Fold a list of `(dir_entry, dataset)` pairs into an empty `Buffer` by
`add_dataset` calls, in order. -/
def buildBuffer (L : List (DirectoryEntry × Dataset)) : Buffer :=
  L.foldl (fun b p => b.add_dataset p.1 p.2) {}

/-- A Python dict key is absent exactly when no pair was ever stored under
it, so a `typ` key maps to `none` rather than to an empty list. -/
def optList {α : Type} (l : List α) : Option (List α) :=
  if l.isEmpty then none else some l

/-- The integer tuple `_read_dataset` returns for a record (used to state
what a decoded dataset must be; meaningful when decoding succeeds). -/
def datasetValsOf (e : DirectoryEntry) (raw : List Nat) : List Int :=
  match readDataset e raw with
  | .ok (_, vs) => vs
  | .error _ => []

/-- The pure effect of the `elif filters:` arm on the buffer, when every
needed decode succeeds: one `add_dataset` per matching constraint. -/
def addMatched (raw : List Nat) (b : Buffer) (e : DirectoryEntry) : Filters → Buffer
  | [] => b
  | (a, vs) :: rest =>
    if vs.contains (getAttr e a) then
      addMatched raw (b.add_dataset e (.ints (datasetValsOf e raw))) e rest
    else addMatched raw b e rest

/-- An ordinary data record for `iter_buffers`: none of the reserved /
sentinel tag numbers (all of which are 0, 999 or ≥ 65000) and not a
secondary tag. -/
abbrev plainData (sec : List Nat) (e : DirectoryEntry) : Prop :=
  e.tag_number ≠ 0 ∧ e.tag_number ≠ 999 ∧ e.tag_number < 65000 ∧
    sec.contains e.tag_number = false

/-- Every `NEXT` record anywhere in the byte stream jumps the cursor
strictly forward (`dir_base + data_offset ≥ data_offset > position of the
record`): a decidable sufficient condition for the scan to terminate. -/
def advancingNexts (f : List Nat) : Bool :=
  (List.range f.length).all fun i =>
    match readDirEntry f i with
    | some d => if d.tag_number = 999 then decide (i < d.data_offset) else true
    | none => true

/-- Termination measure for the scan loop: the cursor can only stand still
in the iteration that clears `first_tag`. -/
def scanMeasure (f : List Nat) (s : ScanState) : Nat :=
  2 * (f.length - s.cursor) + (if s.firstTag then 1 else 0)

/-- File for claim C4: a valid first time record, then a `NEXT` record with
`data_offset = 0`, which jumps the cursor back to the buffer base — the
scan revisits the same three states forever. -/
def c4File : List Nat := encodeEntry timeEntry ++ encodeEntry (nextEntry 0) ++ [0]

/-- Second state of the C4 cycle (after the signature match). -/
def c4s1 : ScanState := ⟨0, 0, [timeEntry], false, false⟩

/-- Third state of the C4 cycle (after re-reading the time record). -/
def c4s2 : ScanState := ⟨16, 0, [timeEntry, timeEntry], false, false⟩

/-- File for claim C1: a valid first buffer whose `NEXT` points at 16 junk
bytes (value 1), after which a valid time record and a `LAST` record
follow; 17 bytes of padding keep the end-of-file guard quiet. -/
def c1File : List Nat :=
  encodeEntry timeEntry ++ encodeEntry (nextEntry 32) ++ List.replicate 16 1 ++
    encodeEntry timeEntry ++ encodeEntry lastEntry ++ List.replicate 17 0

/-- The junk directory record at byte 32 of `c1File` (16 bytes of 1). -/
def c1junk : DirectoryEntry := ⟨257, 257, 257, 257, 257, 1, 1, 1, 1, 257⟩

/-- C2 counterexample file: one `NEXT` segment and a final segment with an
8-byte payload after the `LAST` entry. -/
def c2seg : Seg := ⟨[], []⟩

/-- Final segment of the C2 counterexample (payload length 8 ≤ 16). -/
def c2fin : Seg := ⟨[], List.replicate 8 0⟩

/-- `mkFile [c2seg] c2fin`. -/
def c2File : List Nat := mkFile [c2seg] c2fin

/-- C3 counterexample record: known type 1, `samples * bytes_per_sample =
3`, but `number_of_bytes = 2 < 3`, and `data_offset + 3` one past the
buffer end. -/
def c3entry : DirectoryEntry := ⟨5, 2, 2, 1, 3, 1, 0, 0, 0, 0⟩

/-- A type-66 record with `bytes_per_sample = 8` (not a multiple of 16). -/
def c66entry : DirectoryEntry := ⟨6, 0, 8, 1, 8, 66, 0, 0, 0, 0⟩

/-- Matching data record (tag 7) of the C5 file, payload at offset 64. -/
def tag7e : DirectoryEntry := ⟨7, 64, 2, 1, 2, 1, 0, 0, 0, 0⟩

/-- Non-matching data record (tag 8) of the C5 file, payload at offset 66. -/
def tag8e : DirectoryEntry := ⟨8, 66, 2, 1, 2, 1, 0, 0, 0, 0⟩

/-- Non-matching data record of the second (dropped) C5 buffer. -/
def tag8b : DirectoryEntry := ⟨8, 48, 2, 1, 2, 1, 0, 0, 0, 0⟩

/-- First C5 segment: one matching and one non-matching data record. -/
def c5seg1 : Seg := ⟨[tag7e, tag8e], [5, 0, 9, 0, 0, 0, 0, 0]⟩

/-- Second C5 segment: no record matches the filter. -/
def c5seg2 : Seg := ⟨[tag8b], [3, 0, 0, 0, 0, 0, 0, 0]⟩

/-- Final C5 segment (payload > 16 so the final buffer is emitted once). -/
def c5fin : Seg := ⟨[], List.replicate 17 0⟩

/-- The C5 file. -/
def file5 : List Nat := mkFile [c5seg1, c5seg2] c5fin

/-- The C5 filter: `{tag_number: {7}}`. -/
def fl5 : Filters := [(.tag_number, [7])]

/-- The buffers `iter_buffers(file5, fl5)` yields. -/
def c5List : List Buffer :=
  match iterBuffers file5 fl5 [] 60 with
  | some (.ok l) => l
  | _ => []

/-- The time record of the spec's round-trip test case. -/
def seaT0 : SEATime := ⟨2019, 3, 1, 10, 0, 0, 5000, 10000, 0⟩

/-! # Theorems

Helper lemmas first, then one theorem per claim (with witnesses and
counterexamples as required). -/

theorem dictGet_dictSet_self {α : Type} (l : List (Nat × α)) (k : Nat) (v : α) :
    dictGet (dictSet l k v) k = some v := by
  induction l with
  | nil => simp [dictSet, dictGet]
  | cons p rest ih =>
    by_cases h : p.1 = k
    · simp [dictSet, dictGet, h]
    · simp [dictSet, dictGet, h, ih]

theorem dictGet_dictSet_ne {α : Type} (l : List (Nat × α)) (k : Nat) (v : α) (t : Nat)
    (h : t ≠ k) : dictGet (dictSet l k v) t = dictGet l t := by
  have h2 : ¬ (k = t) := fun hh => h hh.symm
  induction l with
  | nil => simp [dictSet, dictGet, h2]
  | cons p rest ih =>
    by_cases hp : p.1 = k
    · simp [dictSet, dictGet, hp, h2]
    · by_cases hpt : p.1 = t <;> simp [dictSet, dictGet, hp, hpt, ih, h]

theorem dictGet_dictAppend {α : Type} (l : List (Nat × List α)) (k : Nat) (v : α)
    (t : Nat) :
    dictGet (dictAppend l k v) t =
      if t = k then some ((dictGet l k).getD [] ++ [v]) else dictGet l t := by
  by_cases ht : t = k
  · subst ht
    cases h : dictGet l t <;>
      simp [dictAppend, h, dictGet_dictSet_self]
  · cases h : dictGet l k <;>
      simp [dictAppend, h, dictGet_dictSet_ne _ _ _ _ ht, ht]

theorem add_dataset_ds_tag_eq (b : Buffer) (d : DirectoryEntry) (ds : Dataset) :
    (b.add_dataset d ds).datasets_by_tag_number =
      dictSet b.datasets_by_tag_number d.tag_number ds := by
  by_cases h0 : d.tag_number = 0 <;> simp [Buffer.add_dataset, h0]

theorem add_dataset_de_tag_eq (b : Buffer) (d : DirectoryEntry) (ds : Dataset) :
    (b.add_dataset d ds).dir_entries_by_tag_number =
      dictSet b.dir_entries_by_tag_number d.tag_number d := by
  by_cases h0 : d.tag_number = 0 <;> simp [Buffer.add_dataset, h0]

theorem add_dataset_ds_tagmap (b : Buffer) (d : DirectoryEntry) (ds : Dataset) (t : Nat) :
    dictGet (b.add_dataset d ds).datasets_by_tag_number t =
      if t = d.tag_number then some ds else dictGet b.datasets_by_tag_number t := by
  rw [add_dataset_ds_tag_eq]
  by_cases ht : t = d.tag_number
  · simp [ht, dictGet_dictSet_self]
  · simp [ht, dictGet_dictSet_ne _ _ _ _ ht]

theorem add_dataset_de_tagmap (b : Buffer) (d : DirectoryEntry) (ds : Dataset) (t : Nat) :
    dictGet (b.add_dataset d ds).dir_entries_by_tag_number t =
      if t = d.tag_number then some d else dictGet b.dir_entries_by_tag_number t := by
  rw [add_dataset_de_tag_eq]
  by_cases ht : t = d.tag_number
  · simp [ht, dictGet_dictSet_self]
  · simp [ht, dictGet_dictSet_ne _ _ _ _ ht]

theorem add_dataset_ds_typmap (b : Buffer) (d : DirectoryEntry) (ds : Dataset) (t : Nat) :
    dictGet (b.add_dataset d ds).datasets_by_typ t =
      if d.tag_number = 0 then dictGet b.datasets_by_typ t
      else if t = d.typ then some ((dictGet b.datasets_by_typ d.typ).getD [] ++ [ds])
      else dictGet b.datasets_by_typ t := by
  by_cases h0 : d.tag_number = 0
  · simp [Buffer.add_dataset, h0]
  · simp [Buffer.add_dataset, h0, dictGet_dictAppend]

theorem add_dataset_de_typmap (b : Buffer) (d : DirectoryEntry) (ds : Dataset) (t : Nat) :
    dictGet (b.add_dataset d ds).dir_entries_by_typ t =
      if d.tag_number = 0 then dictGet b.dir_entries_by_typ t
      else if t = d.typ then some ((dictGet b.dir_entries_by_typ d.typ).getD [] ++ [d])
      else dictGet b.dir_entries_by_typ t := by
  by_cases h0 : d.tag_number = 0
  · simp [Buffer.add_dataset, h0]
  · simp [Buffer.add_dataset, h0, dictGet_dictAppend]

theorem optList_getD {α : Type} (l : List α) : (optList l).getD [] = l := by
  cases l with
  | nil => rfl
  | cons a t => rfl

theorem optList_concat {α : Type} (l : List α) (a : α) :
    optList (l ++ [a]) = some ((optList l).getD [] ++ [a]) := by
  rw [optList_getD]
  cases l <;> simp [optList]

theorem buildBuffer_concat (L : List (DirectoryEntry × Dataset))
    (p : DirectoryEntry × Dataset) :
    buildBuffer (L ++ [p]) = (buildBuffer L).add_dataset p.1 p.2 := by
  simp [buildBuffer]

theorem buildBuffer_typ_de (L : List (DirectoryEntry × Dataset)) (t : Nat) :
    dictGet (buildBuffer L).dir_entries_by_typ t =
      optList ((L.filter fun p => !(p.1.tag_number == 0) && (p.1.typ == t)).map
        fun p => p.1) := by
  induction L using List.reverseRecOn generalizing t with
  | nil => simp [buildBuffer, dictGet, optList]
  | append_singleton L p ih =>
    rw [buildBuffer_concat, add_dataset_de_typmap, List.filter_append]
    by_cases h0 : p.1.tag_number = 0
    · simp [h0, ih]
    · by_cases ht : t = p.1.typ
      · subst ht
        rw [if_neg h0, if_pos rfl, ih]
        simp [h0, List.filter_cons, optList_concat, optList_getD]
      · have hb : (p.1.typ == t) = false := by
          simp [beq_eq_false_iff_ne]
          exact fun hh => ht hh.symm
        rw [if_neg h0, if_neg ht, ih]
        simp [hb, List.filter_cons]

theorem buildBuffer_typ_ds (L : List (DirectoryEntry × Dataset)) (t : Nat) :
    dictGet (buildBuffer L).datasets_by_typ t =
      optList ((L.filter fun p => !(p.1.tag_number == 0) && (p.1.typ == t)).map
        fun p => p.2) := by
  induction L using List.reverseRecOn generalizing t with
  | nil => simp [buildBuffer, dictGet, optList]
  | append_singleton L p ih =>
    rw [buildBuffer_concat, add_dataset_ds_typmap, List.filter_append]
    by_cases h0 : p.1.tag_number = 0
    · simp [h0, ih]
    · by_cases ht : t = p.1.typ
      · subst ht
        rw [if_neg h0, if_pos rfl, ih]
        simp [h0, List.filter_cons, optList_concat, optList_getD]
      · have hb : (p.1.typ == t) = false := by
          simp [beq_eq_false_iff_ne]
          exact fun hh => ht hh.symm
        rw [if_neg h0, if_neg ht, ih]
        simp [hb, List.filter_cons]

theorem buildBuffer_tag_de (L : List (DirectoryEntry × Dataset)) (t : Nat) :
    dictGet (buildBuffer L).dir_entries_by_tag_number t =
      ((L.filter fun p => p.1.tag_number == t).getLast?).map fun p => p.1 := by
  induction L using List.reverseRecOn generalizing t with
  | nil => simp [buildBuffer, dictGet]
  | append_singleton L p ih =>
    rw [buildBuffer_concat, add_dataset_de_tagmap, List.filter_append]
    by_cases ht : t = p.1.tag_number
    · subst ht
      simp [List.filter_cons, List.getLast?_concat]
    · have hb : (p.1.tag_number == t) = false := by
        simp [beq_eq_false_iff_ne]
        exact fun hh => ht hh.symm
      simp [ht, hb, List.filter_cons, ih]

theorem buildBuffer_tag_ds (L : List (DirectoryEntry × Dataset)) (t : Nat) :
    dictGet (buildBuffer L).datasets_by_tag_number t =
      ((L.filter fun p => p.1.tag_number == t).getLast?).map fun p => p.2 := by
  induction L using List.reverseRecOn generalizing t with
  | nil => simp [buildBuffer, dictGet]
  | append_singleton L p ih =>
    rw [buildBuffer_concat, add_dataset_ds_tagmap, List.filter_append]
    by_cases ht : t = p.1.tag_number
    · subst ht
      simp [List.filter_cons, List.getLast?_concat]
    · have hb : (p.1.tag_number == t) = false := by
        simp [beq_eq_false_iff_ne]
        exact fun hh => ht hh.symm
      simp [ht, hb, List.filter_cons, ih]

/-- Claim C9: invariant of the `Buffer` container under every sequence of
`add_dataset` calls.  The two `typ`-indexed dicts hold, at each key `t`,
exactly the non-`TIME` records inserted with `typ = t`, in insertion order
(so a `TIME_TAG = 0` record is never stored in the `typ`-indexed maps,
while every other record is appended to both of them); the two
`tag_number`-indexed dicts map each tag to the most recently inserted
record with that tag (so every record, `TIME` included, is stored in the
`tag_number`-indexed maps when it is added). -/
theorem buffer_index_invariant :
    ∀ (L : List (DirectoryEntry × Dataset)) (t : Nat),
      (buildBuffer L).get_dir_entries_by_typ t =
        optList ((L.filter fun p => !(p.1.tag_number == 0) && (p.1.typ == t)).map
          fun p => p.1) ∧
      (buildBuffer L).get_datasets_by_typ t =
        optList ((L.filter fun p => !(p.1.tag_number == 0) && (p.1.typ == t)).map
          fun p => p.2) ∧
      (buildBuffer L).get_dir_entry_by_tag_number t =
        ((L.filter fun p => p.1.tag_number == t).getLast?).map (fun p => p.1) ∧
      (buildBuffer L).get_dataset_by_tag_number t =
        ((L.filter fun p => p.1.tag_number == t).getLast?).map (fun p => p.2) :=
  fun L t =>
    ⟨buildBuffer_typ_de L t, buildBuffer_typ_ds L t,
      buildBuffer_tag_de L t, buildBuffer_tag_ds L t⟩

/-- Claim C10 (implicit): two `add_dataset` calls with the same non-`TIME`
tag number silently overwrite the `tag_number`-indexed entry and dataset
with the second one, while the `typ`-indexed list receives both, so
`get_datasets_by_typ` returns two datasets while
`get_dataset_by_tag_number` returns only the later one.  `add_dataset` is a
total function with no warning or exception path, so no error or warning
is possible. -/
theorem add_dataset_duplicate_overwrite (d1 d2 : DirectoryEntry) (ds1 ds2 : Dataset)
    (htag : d2.tag_number = d1.tag_number) (h0 : d1.tag_number ≠ 0)
    (htyp : d2.typ = d1.typ) :
    (Buffer.add_dataset (Buffer.add_dataset {} d1 ds1) d2 ds2).get_datasets_by_typ
        d1.typ = some [ds1, ds2] ∧
    (Buffer.add_dataset (Buffer.add_dataset {} d1 ds1) d2 ds2).get_dataset_by_tag_number
        d1.tag_number = some ds2 ∧
    (Buffer.add_dataset (Buffer.add_dataset {} d1 ds1) d2 ds2).get_dir_entry_by_tag_number
        d1.tag_number = some d2 := by
  have h02 : d2.tag_number ≠ 0 := htag ▸ h0
  refine ⟨?_, ?_, ?_⟩
  · rw [Buffer.get_datasets_by_typ, add_dataset_ds_typmap]
    simp only [h02, if_neg h02, htyp, if_pos rfl]
    rw [add_dataset_ds_typmap]
    simp [h0, dictGet]
  · rw [Buffer.get_dataset_by_tag_number, add_dataset_ds_tagmap]
    simp [htag]
  · rw [Buffer.get_dir_entry_by_tag_number, add_dataset_de_tagmap]
    simp [htag]

/-- Witness for C10: two concrete tag-7 records of type 3. -/
theorem add_dataset_duplicate_overwrite_witness :
    (Buffer.add_dataset (Buffer.add_dataset {} ⟨7, 0, 0, 0, 0, 3, 0, 0, 0, 0⟩
        (.ints [1])) ⟨7, 1, 0, 0, 0, 3, 0, 0, 0, 0⟩ (.ints [2])).get_datasets_by_typ 3 =
      some [.ints [1], .ints [2]] ∧
    (Buffer.add_dataset (Buffer.add_dataset {} ⟨7, 0, 0, 0, 0, 3, 0, 0, 0, 0⟩
        (.ints [1])) ⟨7, 1, 0, 0, 0, 3, 0, 0, 0, 0⟩ (.ints [2])).get_dataset_by_tag_number
      7 = some (.ints [2]) ∧
    (Buffer.add_dataset (Buffer.add_dataset {} ⟨7, 0, 0, 0, 0, 3, 0, 0, 0, 0⟩
        (.ints [1])) ⟨7, 1, 0, 0, 0, 3, 0, 0, 0, 0⟩
        (.ints [2])).get_dir_entry_by_tag_number 7 =
      some ⟨7, 1, 0, 0, 0, 3, 0, 0, 0, 0⟩ :=
  add_dataset_duplicate_overwrite ⟨7, 0, 0, 0, 0, 3, 0, 0, 0, 0⟩
    ⟨7, 1, 0, 0, 0, 3, 0, 0, 0, 0⟩ (.ints [1]) (.ints [2]) rfl (by decide) rfl

theorem structSize_append (a b : List Elem) :
    structSize (a ++ b) = structSize a + structSize b := by
  simp [structSize]

theorem structSize_flatten_replicate (n : Nat) (l : List Elem) :
    structSize ((List.replicate n l).flatten) = n * structSize l := by
  induction n with
  | zero => simp [structSize]
  | succ m ih =>
    rw [List.replicate_succ, List.flatten_cons, structSize_append, ih]
    ring

/-- Claim C3 (amended): for an ordinary data record with a known
acquisition type, *provided* the record declares `number_of_bytes ≥
expected_size` (otherwise the size-mismatch warning branch skips the
overrun check entirely) and its declared `bytes_per_sample` equals the
layout's true per-sample struct size, the decoder validates bounds with
`expected_size = samples * bytes_per_sample`: a record declaring
`data_offset + expected_size` equal to the raw buffer's length decodes
successfully, and one declaring it equal to the length plus one raises the
fatal payload-overrun `ValueError`. -/
theorem read_dataset_bounds (d : DirectoryEntry) (elems : List Elem)
    (hl : sampleLayout d.typ d.bytes_per_sample = some elems)
    (hsz : structSize elems = d.bytes_per_sample)
    (hnob : d.samples * d.bytes_per_sample ≤ d.number_of_bytes) :
    (∀ raw : List Nat, d.data_offset + d.samples * d.bytes_per_sample = raw.length →
      ∃ ws vs, readDataset d raw = .ok (ws, vs)) ∧
    (∀ raw : List Nat, d.data_offset + d.samples * d.bytes_per_sample = raw.length + 1 →
      readDataset d raw = .error .valueError) := by
  constructor
  · intro raw hlen
    simp only [readDataset, hl]
    rw [if_neg (by omega : ¬ (d.number_of_bytes < d.samples * d.bytes_per_sample)),
      if_neg (by omega : ¬ (raw.length < d.data_offset + d.samples * d.bytes_per_sample))]
    unfold unpackDataset
    rw [if_pos (by rw [structSize_flatten_replicate, hsz]; omega)]
    exact ⟨_, _, rfl⟩
  · intro raw hlen
    simp only [readDataset, hl]
    rw [if_neg (by omega : ¬ (d.number_of_bytes < d.samples * d.bytes_per_sample)),
      if_pos (by omega : raw.length < d.data_offset + d.samples * d.bytes_per_sample)]

/-- Witness for C3 (amended): a type-1 record with `samples = 2`,
`bytes_per_sample = 2`, `number_of_bytes = 4`, `data_offset = 0`; a 4-byte
buffer decodes, a 3-byte buffer raises the overrun `ValueError`. -/
theorem read_dataset_bounds_witness :
    (∃ ws vs, readDataset ⟨5, 0, 4, 2, 2, 1, 0, 0, 0, 0⟩ [1, 0, 2, 0] = .ok (ws, vs)) ∧
    readDataset ⟨5, 0, 4, 2, 2, 1, 0, 0, 0, 0⟩ [1, 0, 2] = .error .valueError :=
  ⟨(read_dataset_bounds ⟨5, 0, 4, 2, 2, 1, 0, 0, 0, 0⟩ [.i16] rfl rfl
      (by decide)).1 [1, 0, 2, 0] (by decide),
    (read_dataset_bounds ⟨5, 0, 4, 2, 2, 1, 0, 0, 0, 0⟩ [.i16] rfl rfl
      (by decide)).2 [1, 0, 2] (by decide)⟩

/-- Counterexample to C3 as stated: `c3entry` has the known type 1 and
declares `data_offset + samples * bytes_per_sample = 5 = len(raw) + 1`,
yet no payload-overrun error is raised — because `number_of_bytes = 2 <
expected_size = 3` routes the record through the size-mismatch warning
branch, whose `elif` skips the overrun check, and the record then decodes
successfully. -/
theorem read_dataset_bounds_counterexample :
    c3entry.data_offset + c3entry.samples * c3entry.bytes_per_sample =
      ([0, 0, 7, 0] : List Nat).length + 1 ∧
    readDataset c3entry [0, 0, 7, 0] = .ok ([.sizeMismatch], [7]) :=
  ⟨by decide, by decide⟩

/-- Claim C6 (amended): the acquisition-type dispatch maps type 1 to one
signed 16-bit int, type 2 to twenty unsigned 16-bit ints followed by two
signed 8-bit ints, type 5 to 1024 unsigned 32-bit ints, type 66 to
`⌈bytes_per_sample / 16⌉` pairs of unsigned 64-bit ints, and type 78 to
4096 unsigned 8-bit ints **followed by one unsigned 16-bit int** (the
format string is `'B' * 4096` substituted into `'{}H'`); a type-66 record
whose `bytes_per_sample` is not a multiple of 16 decodes with only the
recoverable misalignment warning (concrete instance: `c66entry`). -/
theorem acquisition_type_layouts (bps : Nat) :
    sampleLayout 1 bps = some [.i16] ∧
    sampleLayout 2 bps = some (List.replicate 20 .u16 ++ [.i8, .i8]) ∧
    sampleLayout 5 bps = some (List.replicate 1024 .u32) ∧
    sampleLayout 66 bps = some (List.replicate (2 * ((bps + 15) / 16)) .u64) ∧
    sampleLayout 78 bps = some (List.replicate 4096 .u8 ++ [.u16]) ∧
    readDataset c66entry (List.replicate 16 0) = .ok ([.greyMisaligned], [0, 0]) :=
  ⟨rfl, rfl, rfl, rfl, rfl, rfl⟩

/-- Counterexample to C6 as stated: the per-sample layout of type 78 is not
4096 unsigned bytes — it is 4096 unsigned bytes plus a trailing unsigned
16-bit int. -/
theorem acquisition_type_78_counterexample :
    sampleLayout 78 4098 = some (List.replicate 4096 Elem.u8 ++ [Elem.u16]) ∧
    (sampleLayout 78 4098).map List.length = some 4097 ∧
    (sampleLayout 78 4098).map List.length ≠ some 4096 := by
  have h0 : sampleLayout 78 4098 = some (List.replicate 4096 Elem.u8 ++ [Elem.u16]) := rfl
  refine ⟨h0, ?_, ?_⟩
  · rw [h0, Option.map_some', List.length_append, List.length_replicate]
    decide
  · rw [h0, Option.map_some', List.length_append, List.length_replicate]
    decide

theorem removeInvalidFilters_err (fs : List (String × List Nat))
    (h : fs.any (fun p => (attrOfString p.1).isNone) = true) :
    removeInvalidFilters fs = .error .runtimeError := by
  induction fs with
  | nil => simp at h
  | cons p rest ih =>
    rw [List.any_cons] at h
    by_cases hv : (attrOfString p.1).isSome
    · have hrest : rest.any (fun p => (attrOfString p.1).isNone) = true := by
        rcases Bool.or_eq_true_iff.mp h with h1 | h1
        · rw [Option.isNone_iff_eq_none] at h1
          rw [h1] at hv
          exact absurd hv (by simp)
        · exact h1
      cases p with
      | mk k vs => simp [removeInvalidFilters, hv, ih hrest]
    · cases p with
      | mk k vs => simp [removeInvalidFilters, hv]

/-- Claim C8 (the spec is right, the code has a bug): a filter containing
any attribute name that is not a `DirectoryEntry` attribute makes
`_raw_buffers` warn, `del` the key from the dict it is iterating over, and
then die with `RuntimeError: dictionary changed size during iteration` on
the next advance of the `for attr_name in filters.keys()` loop — the scan
aborts instead of proceeding with the remaining valid constraints. -/
theorem invalid_filter_name_aborts (f : List Nat) (fs : List (String × List Nat))
    (fuel : Nat) (h : fs.any (fun p => (attrOfString p.1).isNone) = true) :
    rawBuffersChecked f fs fuel = .error .runtimeError := by
  simp [rawBuffersChecked, removeInvalidFilters_err fs h]

/-- Witness for C8: the filter `{"bogus": [7]}` aborts the scan of any
file with `RuntimeError`. -/
theorem invalid_filter_name_aborts_witness :
    rawBuffersChecked [] [("bogus", [7])] 5 = .error .runtimeError :=
  invalid_filter_name_aborts [] [("bogus", [7])] 5 (by decide)

theorem roundHalfEven_intCast (m : ℤ) : roundHalfEven (m : ℚ) = m := by
  have h : ((m : ℚ) - ⌊(m : ℚ)⌋ : ℚ) = 0 := by simp
  simp [roundHalfEven, h]

theorem abs_roundHalfEven_sub (q : ℚ) : |(roundHalfEven q : ℚ) - q| ≤ 1 / 2 := by
  have h1 : ((⌊q⌋ : ℚ)) ≤ q := Int.floor_le q
  have h2 : q < (⌊q⌋ : ℚ) + 1 := Int.lt_floor_add_one q
  unfold roundHalfEven
  split_ifs with ha hb hc
  · rw [abs_le]
    constructor <;> linarith
  · rw [abs_le]
    push_cast
    constructor <;> linarith
  · have heq : q - (⌊q⌋ : ℚ) = 1 / 2 := le_antisymm (not_lt.mp hb) (not_lt.mp ha)
    rw [abs_le]
    constructor <;> linarith
  · have heq : q - (⌊q⌋ : ℚ) = 1 / 2 := le_antisymm (not_lt.mp hb) (not_lt.mp ha)
    rw [abs_le]
    push_cast
    constructor <;> linarith

/-- The correctly rounded double of `a / b`, truncated to an integer,
agrees with exact natural floor division throughout the ranges the time
codec uses (`a = 1000000 * fraction_of_second ≤ 1000000 * 65535`,
`1 ≤ b ≤ 65535`): the quotient is below `2^36`, so the rounding error
(at most half an ulp, `≤ 2^-18`) is smaller than the distance `≥ 1/65536`
from the exact quotient to the nearest integer on either side, and exact
integer quotients are representable. -/
theorem floor_roundToDouble_div (a b : Nat) (ha : a ≤ 65535000000) (hb1 : 1 ≤ b)
    (hb2 : b ≤ 65535) :
    ⌊roundToDouble ((a : ℚ) / (b : ℚ))⌋ = ((a / b : ℕ) : ℤ) := by
  have hbQ : (0 : ℚ) < (b : ℚ) := by
    have : 0 < b := by omega
    exact_mod_cast this
  rcases Nat.eq_zero_or_pos a with ha0 | hapos
  · subst ha0
    simp [roundToDouble, Nat.zero_div]
  · have hq0 : 0 < (a : ℚ) / (b : ℚ) := by
      apply div_pos _ hbQ
      exact_mod_cast hapos
    set q : ℚ := (a : ℚ) / (b : ℚ) with hq_def
    set e : ℤ := Int.log 2 q with he_def
    have hqa : q ≤ (a : ℚ) := by
      rw [hq_def]
      apply div_le_self (by positivity)
      exact_mod_cast hb1
    have hq36 : q < (2 : ℚ) ^ (36 : ℤ) := by
      have h36 : ((2 : ℚ) ^ (36 : ℤ)) = 68719476736 := by norm_num
      have : (a : ℚ) ≤ 65535000000 := by exact_mod_cast ha
      rw [h36]
      linarith
    have he35 : e ≤ 35 := by
      by_contra hcon
      push_neg at hcon
      have h1 : (2 : ℚ) ^ (36 : ℤ) ≤ (2 : ℚ) ^ e :=
        zpow_le_zpow_right₀ (by norm_num) (by omega)
      have h2 : (2 : ℚ) ^ e ≤ q := Int.zpow_log_le_self (by norm_num) hq0
      linarith
    set g : ℚ := (2 : ℚ) ^ (e - 52) with hg_def
    have hg0 : 0 < g := zpow_pos (by norm_num) _
    have hge : g ≤ (2 : ℚ) ^ (-17 : ℤ) := zpow_le_zpow_right₀ (by norm_num) (by omega)
    have h17 : ((2 : ℚ) ^ (-17 : ℤ)) = 1 / 131072 := by norm_num
    have hrtd : roundToDouble q = (roundHalfEven (q / g) : ℚ) * g := by
      rw [roundToDouble, if_neg (not_le.mpr hq0)]
    have herr : |(roundHalfEven (q / g) : ℚ) * g - q| ≤ g / 2 := by
      have hsplit : (roundHalfEven (q / g) : ℚ) * g - q =
          ((roundHalfEven (q / g) : ℚ) - q / g) * g := by
        field_simp
      rw [hsplit, abs_mul, abs_of_pos hg0]
      have := abs_roundHalfEven_sub (q / g)
      nlinarith
    have hdm : b * (a / b) + a % b = a := Nat.div_add_mod a b
    have hmlt : a % b < b := Nat.mod_lt a (by omega)
    have hqn : q = ((a / b : ℕ) : ℚ) + ((a % b : ℕ) : ℚ) / (b : ℚ) := by
      rw [hq_def]
      have hcast : ((b : ℚ)) * ((a / b : ℕ) : ℚ) + ((a % b : ℕ) : ℚ) = (a : ℚ) := by
        exact_mod_cast hdm
      push_cast at hcast
      field_simp
      linarith
    by_cases hrr : a % b = 0
    · -- exact integer quotient: representable, rounds to itself
      have hq_int : q = ((a / b : ℕ) : ℚ) := by rw [hqn, hrr]; simp
      have hn1 : 1 ≤ a / b := by
        rcases Nat.eq_zero_or_pos (a / b) with h | h
        · exfalso
          rw [h, Nat.mul_zero, Nat.zero_add] at hdm
          omega
        · exact h
      have hq1 : (1 : ℚ) ≤ q := by
        rw [hq_int]
        exact_mod_cast hn1
      have he0 : 0 ≤ e := by
        rw [he_def, Int.log_of_one_le_right _ hq1]
        positivity
      have hqg_int : q / g = ((((a / b) * 2 ^ (52 - e).toNat : ℕ) : ℤ) : ℚ) := by
        rw [hq_int, hg_def, div_eq_mul_inv, ← zpow_neg]
        have hexp : -(e - 52) = ((52 - e).toNat : ℤ) := by omega
        rw [hexp, zpow_natCast, Int.cast_natCast]
        push_cast
        ring
      rw [hrtd, hqg_int, roundHalfEven_intCast, ← hqg_int]
      have hqq : q / g * g = q := by field_simp
      rw [hqq, hq_int]
      exact_mod_cast Int.floor_natCast (a / b)
    · -- strictly between two integers, far from each (at least 1/b) while
      -- the rounding error is at most g/2 < 1/65536 ≤ 1/b
      have hone : (1 : ℚ) ≤ ((a % b : ℕ) : ℚ) := by
        exact_mod_cast Nat.one_le_iff_ne_zero.mpr hrr
      have hble : ((b : ℕ) : ℚ) ≤ 65535 := by exact_mod_cast hb2
      have hgb : g / 2 < 1 / (b : ℚ) := by
        have h1 : g / 2 ≤ 1 / 262144 := by
          rw [h17] at hge
          linarith
        have h2 : (1 : ℚ) / 65535 ≤ 1 / (b : ℚ) := by
          apply one_div_le_one_div_of_le hbQ hble
        linarith
      have hlow : (1 : ℚ) / (b : ℚ) ≤ q - ((a / b : ℕ) : ℚ) := by
        have hsub : ((a / b : ℕ) : ℚ) + ((a % b : ℕ) : ℚ) / (b : ℚ) - ((a / b : ℕ) : ℚ)
            = ((a % b : ℕ) : ℚ) / (b : ℚ) := by ring
        rw [hqn, hsub]
        gcongr
      have hrb : ((a % b : ℕ) : ℚ) ≤ (b : ℚ) - 1 := by
        have hn : a % b ≤ b - 1 := by omega
        have hc : ((a % b : ℕ) : ℚ) ≤ ((b - 1 : ℕ) : ℚ) := by exact_mod_cast hn
        have hc2 : ((b - 1 : ℕ) : ℚ) = (b : ℚ) - 1 := by
          push_cast [Nat.cast_sub (by omega : 1 ≤ b)]
          ring
        linarith [hc2 ▸ hc]
      have hkey : ((a % b : ℕ) : ℚ) / (b : ℚ) + 1 / (b : ℚ) ≤ 1 := by
        rw [div_add_div_same, div_le_one hbQ]
        linarith
      have hhigh : (1 : ℚ) / (b : ℚ) ≤ (((a / b : ℕ) : ℚ) + 1) - q := by
        rw [hqn]
        linarith
      have habs := abs_le.mp herr
      rw [hrtd, Int.floor_eq_iff]
      constructor
      · rw [Int.cast_natCast]
        linarith [habs.1]
      · rw [Int.cast_natCast]
        linarith [habs.2]

/-- Claim C7: for every decoded time record (nine unsigned 16-bit fields)
with nonzero `max_sys_freq` whose fields form a valid calendar tuple, the
microsecond component of `datetime_from_seatime` — computed in the source
as `int(1000000 * fraction_of_second / max_sys_freq)` with Python-3 float
division — equals `⌊1000000 * fraction_of_second / max_sys_freq⌋` in exact
integer arithmetic. -/
theorem datetime_from_seatime_microsecond (t : SEATime)
    (hf : t.fraction_of_second ≤ 65535) (hm : t.max_sys_freq ≤ 65535)
    (hm0 : t.max_sys_freq ≠ 0)
    (hv : validDatetime t.year t.month t.day t.hour t.minute t.second
      (1000000 * t.fraction_of_second / t.max_sys_freq) = true) :
    datetime_from_seatime t = .ok
      { year := t.year, month := t.month, day := t.day, hour := t.hour
        minute := t.minute, second := t.second
        microsecond := 1000000 * t.fraction_of_second / t.max_sys_freq } := by
  have hfloor : pyIntOfFloat (pyTrueDiv (1000000 * t.fraction_of_second) t.max_sys_freq)
      = ((1000000 * t.fraction_of_second / t.max_sys_freq : ℕ) : ℤ) := by
    unfold pyIntOfFloat pyTrueDiv
    exact floor_roundToDouble_div (1000000 * t.fraction_of_second) t.max_sys_freq
      (by omega) (by omega) hm
  unfold datetime_from_seatime
  rw [if_neg hm0]
  simp only [hfloor, Int.toNat_natCast]
  rw [if_pos hv]

/-- Witness for C7: the spec's round-trip record
`(2019, 3, 1, 10, 0, 0, 5000, 10000, 0)` decodes to
`2019-03-01T10:00:00.500000`. -/
theorem datetime_from_seatime_microsecond_witness :
    datetime_from_seatime seaT0 = .ok ⟨2019, 3, 1, 10, 0, 0, 500000⟩ := by
  have h := datetime_from_seatime_microsecond seaT0 (by decide) (by decide)
    (by decide) (by decide)
  simpa using h

/-! ### Characterizations of one scanner iteration, per branch -/

theorem scanLoop_succ (f : List Nat) (fl : Filters) (n : Nat) (s : ScanState)
    (acc : List Emit) :
    scanLoop f fl (n + 1) s acc =
      match scanStep f fl s with
      | .fileError => .fileError acc
      | .step es true _ => .done (acc ++ es)
      | .step es false s1 => scanLoop f fl n s1 (acc ++ es) := rfl

theorem scanStep_sig_cont (f : List Nat) (fl : Filters) (s : ScanState)
    (d : DirectoryEntry) (hread : readDirEntry f s.cursor = some d)
    (hft : s.firstTag = true) (hsig : isTimeSig d)
    (hg : ¬ f.length ≤ s.cursor + 16) :
    scanStep f fl s =
      .step [] false ⟨s.cursor, s.dirBase, s.dirEntries ++ [d], s.dropBuffer, false⟩ := by
  unfold scanStep
  rw [hread]
  simp [hft, hsig, hg]

theorem scanStep_resync_cont (f : List Nat) (fl : Filters) (s : ScanState)
    (d : DirectoryEntry) (hread : readDirEntry f s.cursor = some d)
    (hft : s.firstTag = true) (hsig : ¬ isTimeSig d)
    (hg : ¬ f.length ≤ s.cursor + 1 + 16) :
    scanStep f fl s =
      .step [] false ⟨s.cursor + 1, s.cursor + 1, [], s.dropBuffer, true⟩ := by
  unfold scanStep
  rw [hread]
  simp [hft, hsig, hg]

theorem scanStep_next_cont (f : List Nat) (fl : Filters) (s : ScanState)
    (d : DirectoryEntry) (hread : readDirEntry f s.cursor = some d)
    (hft : s.firstTag = false) (htag : d.tag_number = 999)
    (hg : ¬ f.length ≤ s.dirBase + d.data_offset + 16) :
    scanStep f fl s =
      .step (if s.dropBuffer then []
             else [(s.dirEntries ++ [d], pySlice f s.dirBase (s.dirBase + d.data_offset))])
        false
        ⟨s.dirBase + d.data_offset, s.dirBase + d.data_offset, [],
          if matchesFilter fl d then false else !fl.isEmpty, true⟩ := by
  unfold scanStep
  rw [hread]
  simp [hft, htag, hg]

theorem scanStep_plain_cont (f : List Nat) (fl : Filters) (s : ScanState)
    (d : DirectoryEntry) (hread : readDirEntry f s.cursor = some d)
    (hft : s.firstTag = false) (htag : d.tag_number ≠ 999)
    (hlast : d.tag_number ≠ 65535) (hg : ¬ f.length ≤ s.cursor + 16 + 16) :
    scanStep f fl s =
      .step [] false
        ⟨s.cursor + 16, s.dirBase, s.dirEntries ++ [d],
          if matchesFilter fl d then false else s.dropBuffer, false⟩ := by
  unfold scanStep
  rw [hread]
  simp [hft, htag, hlast, hg]

theorem scanStep_plain_end (f : List Nat) (fl : Filters) (s : ScanState)
    (d : DirectoryEntry) (hread : readDirEntry f s.cursor = some d)
    (hft : s.firstTag = false) (htag : d.tag_number ≠ 999)
    (hlast : d.tag_number ≠ 65535) (hg : f.length ≤ s.cursor + 16 + 16) :
    scanStep f fl s =
      .step [(s.dirEntries ++ [d], f.drop s.dirBase)] true
        ⟨s.cursor + 16, s.dirBase, s.dirEntries ++ [d],
          if matchesFilter fl d then false else s.dropBuffer, false⟩ := by
  unfold scanStep
  rw [hread]
  simp [hft, htag, hlast, hg]

theorem scanStep_last_cont (f : List Nat) (fl : Filters) (s : ScanState)
    (d : DirectoryEntry) (hread : readDirEntry f s.cursor = some d)
    (hft : s.firstTag = false) (htag : d.tag_number = 65535)
    (hg : ¬ f.length ≤ s.cursor + 16 + 16) :
    scanStep f fl s =
      .step [(s.dirEntries ++ [d], f.drop s.dirBase)] true
        ⟨s.cursor + 16, s.dirBase, s.dirEntries ++ [d],
          if matchesFilter fl d then false else s.dropBuffer, false⟩ := by
  unfold scanStep
  rw [hread]
  simp [hft, htag, hg]

theorem scanStep_last_end (f : List Nat) (fl : Filters) (s : ScanState)
    (d : DirectoryEntry) (hread : readDirEntry f s.cursor = some d)
    (hft : s.firstTag = false) (htag : d.tag_number = 65535)
    (hg : f.length ≤ s.cursor + 16 + 16) :
    scanStep f fl s =
      .step [(s.dirEntries ++ [d], f.drop s.dirBase),
             (s.dirEntries ++ [d], f.drop s.dirBase)] true
        ⟨s.cursor + 16, s.dirBase, s.dirEntries ++ [d],
          if matchesFilter fl d then false else s.dropBuffer, false⟩ := by
  unfold scanStep
  rw [hread]
  simp [hft, htag, hg]

theorem scanStep_next_state (f : List Nat) (fl : Filters) (s : ScanState)
    (d : DirectoryEntry) (hread : readDirEntry f s.cursor = some d)
    (hft : s.firstTag = false) (htag : d.tag_number = 999) :
    ∃ es b, scanStep f fl s = .step es b
      ⟨s.dirBase + d.data_offset, s.dirBase + d.data_offset, [],
        if matchesFilter fl d then false else !fl.isEmpty, true⟩ := by
  unfold scanStep
  rw [hread]
  by_cases hg : f.length ≤ s.dirBase + d.data_offset + 16 <;>
    simp [hft, htag, hg]

theorem scanStep_resync_state (f : List Nat) (fl : Filters) (s : ScanState)
    (d : DirectoryEntry) (hread : readDirEntry f s.cursor = some d)
    (hft : s.firstTag = true) (hsig : ¬ isTimeSig d) :
    ∃ es b, scanStep f fl s = .step es b
      ⟨s.cursor + 1, s.cursor + 1, [], s.dropBuffer, true⟩ := by
  unfold scanStep
  rw [hread]
  by_cases hg : f.length ≤ s.cursor + 1 + 16 <;>
    simp [hft, hsig, hg]

theorem scanStep_sig_end (f : List Nat) (fl : Filters) (s : ScanState)
    (d : DirectoryEntry) (hread : readDirEntry f s.cursor = some d)
    (hft : s.firstTag = true) (hsig : isTimeSig d)
    (hg : f.length ≤ s.cursor + 16) :
    scanStep f fl s =
      .step [(s.dirEntries ++ [d], f.drop s.dirBase)] true
        ⟨s.cursor, s.dirBase, s.dirEntries ++ [d], s.dropBuffer, false⟩ := by
  unfold scanStep
  rw [hread]
  simp [hft, hsig, hg]

theorem scanStep_resync_end (f : List Nat) (fl : Filters) (s : ScanState)
    (d : DirectoryEntry) (hread : readDirEntry f s.cursor = some d)
    (hft : s.firstTag = true) (hsig : ¬ isTimeSig d)
    (hg : f.length ≤ s.cursor + 1 + 16) :
    scanStep f fl s =
      .step [([], f.drop (s.cursor + 1))] true
        ⟨s.cursor + 1, s.cursor + 1, [], s.dropBuffer, true⟩ := by
  unfold scanStep
  rw [hread]
  simp [hft, hsig, hg]

theorem scanStep_next_end (f : List Nat) (fl : Filters) (s : ScanState)
    (d : DirectoryEntry) (hread : readDirEntry f s.cursor = some d)
    (hft : s.firstTag = false) (htag : d.tag_number = 999)
    (hg : f.length ≤ s.dirBase + d.data_offset + 16) :
    scanStep f fl s =
      .step ((if s.dropBuffer then []
              else [(s.dirEntries ++ [d], pySlice f s.dirBase (s.dirBase + d.data_offset))])
          ++ [([], f.drop (s.dirBase + d.data_offset))]) true
        ⟨s.dirBase + d.data_offset, s.dirBase + d.data_offset, [],
          if matchesFilter fl d then false else !fl.isEmpty, true⟩ := by
  unfold scanStep
  rw [hread]
  simp [hft, htag, hg]

/-- Claim C1 (amended): after the scanner emits a `NEXT`-terminated buffer
it *re-arms* first-record resynchronization (`first_tag = True`, the next
state's cursor and buffer base both at `old dir_base + data_offset`), and
when the record at the new buffer base does not match the time signature,
the very next iteration is a byte-by-byte search step (cursor and buffer
base advance by one byte) — exactly as for the very first buffer of the
file, contrary to the claim that resynchronization never re-runs. -/
theorem raw_buffers_resync_rearmed (f : List Nat) (fl : Filters)
    (s s1 s2 : ScanState) (d d1 : DirectoryEntry) (es es1 : List Emit) (b b1 : Bool)
    (hread : readDirEntry f s.cursor = some d) (hft : s.firstTag = false)
    (hnext : d.tag_number = 999)
    (hstep : scanStep f fl s = .step es b s1)
    (hread1 : readDirEntry f s1.cursor = some d1) (hnotsig : ¬ isTimeSig d1)
    (hstep1 : scanStep f fl s1 = .step es1 b1 s2) :
    s1.firstTag = true ∧ s1.dirBase = s.dirBase + d.data_offset ∧
      s1.cursor = s.dirBase + d.data_offset ∧
      s2.cursor = s1.cursor + 1 ∧ s2.dirBase = s1.cursor + 1 ∧ s2.firstTag = true := by
  obtain ⟨esa, ba, hstepa⟩ := scanStep_next_state f fl s d hread hft hnext
  rw [hstep] at hstepa
  injection hstepa with h1 h2 h3
  have hft1 : s1.firstTag = true := by rw [h3]
  obtain ⟨esb, bb, hstepb⟩ := scanStep_resync_state f fl s1 d1 hread1 hft1 hnotsig
  rw [hstep1] at hstepb
  injection hstepb with g1 g2 g3
  refine ⟨hft1, by rw [h3], by rw [h3], by rw [g3], by rw [g3], by rw [g3]⟩

/-- Witness for C1 (amended), on `c1File`: the `NEXT` step from state
`⟨16, 0, [T, T], false, false⟩` lands on `⟨32, 32, [], false, true⟩` with
`first_tag` re-armed, and since the junk record at byte 32 fails the time
signature, the following step advances the cursor to 33 byte-by-byte. -/
theorem raw_buffers_resync_rearmed_witness :
    (⟨32, 32, [], false, true⟩ : ScanState).firstTag = true ∧
      (⟨32, 32, [], false, true⟩ : ScanState).dirBase = 0 + 32 ∧
      (⟨32, 32, [], false, true⟩ : ScanState).cursor = 0 + 32 ∧
      (⟨33, 33, [], false, true⟩ : ScanState).cursor =
        (⟨32, 32, [], false, true⟩ : ScanState).cursor + 1 ∧
      (⟨33, 33, [], false, true⟩ : ScanState).dirBase =
        (⟨32, 32, [], false, true⟩ : ScanState).cursor + 1 ∧
      (⟨33, 33, [], false, true⟩ : ScanState).firstTag = true :=
  raw_buffers_resync_rearmed c1File []
    ⟨16, 0, [timeEntry, timeEntry], false, false⟩
    ⟨32, 32, [], false, true⟩ ⟨33, 33, [], false, true⟩
    (nextEntry 32) c1junk
    [([timeEntry, timeEntry, nextEntry 32], pySlice c1File 0 32)] []
    false false
    (by decide) rfl rfl (by decide) (by decide) (by decide) (by decide)

/-- Counterexample to C1 as stated: in `c1File` the `NEXT` record's
`data_offset` is 32, so by the claim the record at byte 32 would be
read directly as the second buffer's first record; instead the scanner
re-runs the byte-by-byte signature search (the record at 32 is junk),
resynchronizes at byte 48, and the second emitted buffer starts at 48 and
nowhere contains the junk record. -/
theorem raw_buffers_resync_counterexample :
    rawBuffers c1File [] 300 =
      .done [([timeEntry, timeEntry, nextEntry 32], pySlice c1File 0 32),
             ([timeEntry, timeEntry, lastEntry], c1File.drop 48)] ∧
    readDirEntry c1File 32 = some c1junk ∧
    c1File.drop 48 ≠ c1File.drop 32 ∧
    ¬ c1junk ∈ [timeEntry, timeEntry, lastEntry] :=
  ⟨by decide, by decide, by decide, by decide⟩

/-! ### Claim C4: termination -/

theorem c4_cycle_steps :
    scanStep c4File [] (initState []) = .step [] false c4s1 ∧
    scanStep c4File [] c4s1 = .step [] false c4s2 ∧
    scanStep c4File [] c4s2 =
      .step [([timeEntry, timeEntry, nextEntry 0], [])] false (initState []) :=
  ⟨by decide, by decide, by decide⟩

theorem c4_loop (n : Nat) :
    ∀ acc, scanLoop c4File [] n (initState []) acc = .outOfFuel ∧
      scanLoop c4File [] n c4s1 acc = .outOfFuel ∧
      scanLoop c4File [] n c4s2 acc = .outOfFuel := by
  induction n with
  | zero => exact fun acc => ⟨rfl, rfl, rfl⟩
  | succ m ih =>
    intro acc
    refine ⟨?_, ?_, ?_⟩
    · rw [scanLoop_succ, c4_cycle_steps.1]
      exact (ih (acc ++ [])).2.1
    · rw [scanLoop_succ, c4_cycle_steps.2.1]
      exact (ih (acc ++ [])).2.2
    · rw [scanLoop_succ, c4_cycle_steps.2.2]
      exact (ih (acc ++ [([timeEntry, timeEntry, nextEntry 0], [])])).1

/-- Counterexample to C4 as stated: on `c4File` (a valid time record
followed by a `NEXT` record whose `data_offset` is 0, i.e. pointing at the
current buffer base) the scanner revisits the same three states forever,
yielding an empty-slice buffer on every cycle: no amount of fuel
exhausts the generator, so iterating it to exhaustion does not
terminate. -/
theorem scan_termination_counterexample : ¬ scanTerminates c4File [] := by
  rintro ⟨fuel, h⟩
  exact h ((c4_loop fuel []).1)

theorem advancing_spec (f : List Nat) (hadv : advancingNexts f = true) (i : Nat)
    (d : DirectoryEntry) (hread : readDirEntry f i = some d)
    (htag : d.tag_number = 999) : i < d.data_offset := by
  have hi : i < f.length := by
    by_contra hcon
    push_neg at hcon
    rw [readDirEntry, if_neg (by omega)] at hread
    exact Option.noConfusion hread
  rw [advancingNexts, List.all_eq_true] at hadv
  have h := hadv i (List.mem_range.mpr hi)
  rw [hread] at h
  simp [htag] at h
  exact h

theorem scanStep_measure_lt (f : List Nat) (fl : Filters) (s s1 : ScanState)
    (es : List Emit) (hadv : advancingNexts f = true)
    (h : scanStep f fl s = .step es false s1) :
    scanMeasure f s1 < scanMeasure f s := by
  cases hread : readDirEntry f s.cursor with
  | none =>
    unfold scanStep at h
    rw [hread] at h
    exact StepResult.noConfusion h
  | some d =>
    have hc16 : s.cursor + 16 ≤ f.length := by
      by_contra hcon
      rw [readDirEntry, if_neg (by omega)] at hread
      exact Option.noConfusion hread
    by_cases hft : s.firstTag = true
    · by_cases hsig : isTimeSig d
      · by_cases hg : f.length ≤ s.cursor + 16
        · rw [scanStep_sig_end f fl s d hread hft hsig hg] at h
          simp at h
        · rw [scanStep_sig_cont f fl s d hread hft hsig hg] at h
          injection h with h1 h2 h3
          rw [← h3]
          simp [scanMeasure, hft]
      · by_cases hg : f.length ≤ s.cursor + 1 + 16
        · rw [scanStep_resync_end f fl s d hread hft hsig hg] at h
          simp at h
        · rw [scanStep_resync_cont f fl s d hread hft hsig hg] at h
          injection h with h1 h2 h3
          rw [← h3]
          push_neg at hg
          simp only [scanMeasure, hft, if_true]
          omega
    · have hft0 : s.firstTag = false := by
        cases hb : s.firstTag
        · rfl
        · exact absurd hb hft
      by_cases htag : d.tag_number = 999
      · by_cases hg : f.length ≤ s.dirBase + d.data_offset + 16
        · rw [scanStep_next_end f fl s d hread hft0 htag hg] at h
          simp at h
        · rw [scanStep_next_cont f fl s d hread hft0 htag hg] at h
          injection h with h1 h2 h3
          rw [← h3]
          have hoff := advancing_spec f hadv s.cursor d hread htag
          push_neg at hg
          simp only [scanMeasure, hft0]
          norm_num
          omega
      · by_cases hlast : d.tag_number = 65535
        · by_cases hg : f.length ≤ s.cursor + 16 + 16
          · rw [scanStep_last_end f fl s d hread hft0 hlast hg] at h
            simp at h
          · rw [scanStep_last_cont f fl s d hread hft0 hlast hg] at h
            simp at h
        · by_cases hg : f.length ≤ s.cursor + 16 + 16
          · rw [scanStep_plain_end f fl s d hread hft0 htag hlast hg] at h
            simp at h
          · rw [scanStep_plain_cont f fl s d hread hft0 htag hlast hg] at h
            injection h with h1 h2 h3
            rw [← h3]
            push_neg at hg
            simp only [scanMeasure, hft0]
            norm_num
            omega

theorem scanLoop_halts (f : List Nat) (fl : Filters) (hadv : advancingNexts f = true) :
    ∀ n s acc, scanMeasure f s < n → scanLoop f fl n s acc ≠ .outOfFuel := by
  intro n
  induction n with
  | zero => exact fun s acc h => absurd h (by omega)
  | succ m ih =>
    intro s acc h
    rw [scanLoop_succ]
    cases hstep : scanStep f fl s with
    | fileError => simp
    | step es b s1 =>
      cases b with
      | true => simp
      | false =>
        have hlt := scanStep_measure_lt f fl s s1 es hadv hstep
        simpa using ih s1 (acc ++ es) (by omega)

/-- Claim C4 (amended): the scanner's buffer sequence is finite for every
input in which each `NEXT` record's `data_offset` moves the cursor strictly
forward (in particular whenever every 16-byte window decoding to tag 999
has `data_offset` greater than its own file offset); on inputs where a
`NEXT` jump does not advance the cursor — e.g. a `data_offset` pointing at
or before the current buffer base — the scan can loop forever
(see the counterexample), so the claim does not hold for every input. -/
theorem scan_terminates_of_advancing (f : List Nat) (fl : Filters)
    (hadv : advancingNexts f = true) : scanTerminates f fl :=
  ⟨scanMeasure f (initState fl) + 1,
    scanLoop_halts f fl hadv _ (initState fl) [] (Nat.lt_succ_self _)⟩

/-- Witness for C4 (amended): `c1File` satisfies the advancing-`NEXT`
condition, and its scan terminates. -/
theorem scan_terminates_of_advancing_witness :
    advancingNexts c1File = true ∧ scanTerminates c1File [] :=
  ⟨by decide, scan_terminates_of_advancing c1File [] (by decide)⟩

theorem matchesFilter_nil (d : DirectoryEntry) : matchesFilter [] d = false := rfl

theorem encodeU16_length (n : Nat) : (encodeU16 n).length = 2 := rfl

theorem encodeEntry_length (e : DirectoryEntry) : (encodeEntry e).length = 16 := by
  simp [encodeEntry, encodeU16]

theorem midsBytes_cons (e : DirectoryEntry) (ms : List DirectoryEntry) :
    midsBytes (e :: ms) = encodeEntry e ++ midsBytes ms := by
  simp [midsBytes]

theorem midsBytes_nil : midsBytes [] = [] := rfl

theorem midsBytes_length (ms : List DirectoryEntry) :
    (midsBytes ms).length = 16 * ms.length := by
  induction ms with
  | nil => rfl
  | cons e ms ih =>
    rw [midsBytes_cons, List.length_append, encodeEntry_length, ih, List.length_cons]
    ring

theorem segBytes_length (s : Seg) : (segBytes s).length = segLen s := by
  simp [segBytes, segLen, encodeEntry_length, midsBytes_length]
  ring

theorem lastSegBytes_length (s : Seg) : (lastSegBytes s).length = segLen s := by
  simp [lastSegBytes, segLen, encodeEntry_length, midsBytes_length]
  ring

theorem readDirEntry_encode_zero (e : DirectoryEntry) (he : WFEntry e) (post : List Nat) :
    readDirEntry (encodeEntry e ++ post) 0 = some e := by
  obtain ⟨t, o, nb, sa, bp, ty, p1, p2, p3, ad⟩ := e
  obtain ⟨h1, h2, h3, h4, h5, h6, h7, h8, h9, h10⟩ := he
  have k1 : t < 65536 := h1
  have k2 : o < 65536 := h2
  have k3 : nb < 65536 := h3
  have k4 : sa < 65536 := h4
  have k5 : bp < 65536 := h5
  have k6 : ty < 256 := h6
  have k7 : p1 < 256 := h7
  have k8 : p2 < 256 := h8
  have k9 : p3 < 256 := h9
  have k10 : ad < 65536 := h10
  clear h1 h2 h3 h4 h5 h6 h7 h8 h9 h10
  unfold readDirEntry
  rw [if_pos (by simp [encodeEntry, encodeU16])]
  simp only [Option.some.injEq, DirectoryEntry.mk.injEq]
  refine ⟨?_, ?_, ?_, ?_, ?_, ?_, ?_, ?_, ?_, ?_⟩
  · exact (by omega : t % 256 + 256 * (t / 256 % 256) = t)
  · exact (by omega : o % 256 + 256 * (o / 256 % 256) = o)
  · exact (by omega : nb % 256 + 256 * (nb / 256 % 256) = nb)
  · exact (by omega : sa % 256 + 256 * (sa / 256 % 256) = sa)
  · exact (by omega : bp % 256 + 256 * (bp / 256 % 256) = bp)
  · exact (by omega : ty % 256 = ty)
  · exact (by omega : p1 % 256 = p1)
  · exact (by omega : p2 % 256 = p2)
  · exact (by omega : p3 % 256 = p3)
  · exact (by omega : ad % 256 + 256 * (ad / 256 % 256) = ad)

theorem readDirEntry_at (pre rest : List Nat) :
    readDirEntry (pre ++ rest) pre.length = readDirEntry rest 0 := by
  unfold readDirEntry
  rw [List.length_append]
  by_cases hk : 16 ≤ rest.length
  · rw [if_pos (by omega), if_pos (by omega)]
    have hb : ∀ j : Nat, byteAt (pre ++ rest) (pre.length + j) = byteAt rest j := by
      intro j
      unfold byteAt
      rw [List.getD_append_right pre rest 0 (pre.length + j) (by omega)]
      congr 1
      omega
    have hu : ∀ j : Nat, readU16 (pre ++ rest) (pre.length + j) = readU16 rest j := by
      intro j
      unfold readU16
      rw [hb j]
      have hj : pre.length + j + 1 = pre.length + (j + 1) := by omega
      rw [hj, hb (j + 1)]
    have hu0 : readU16 (pre ++ rest) pre.length = readU16 rest 0 := by
      have hz : pre.length = pre.length + 0 := by omega
      rw [hz, hu 0]
    simp only [Option.some.injEq, DirectoryEntry.mk.injEq, Nat.zero_add]
    exact ⟨hu0, hu 2, hu 4, hu 6, hu 8, hb 10, hb 11, hb 12, hb 13, hu 14⟩
  · rw [if_neg (by omega), if_neg (by omega)]

theorem readDirEntry_encode (pre : List Nat) (e : DirectoryEntry) (he : WFEntry e)
    (post : List Nat) :
    readDirEntry (pre ++ (encodeEntry e ++ post)) pre.length = some e := by
  rw [readDirEntry_at]
  exact readDirEntry_encode_zero e he post

theorem pySlice_exact (pre mid rest : List Nat) :
    pySlice (pre ++ (mid ++ rest)) pre.length (pre.length + mid.length) = mid := by
  unfold pySlice
  rw [List.drop_left]
  have h : pre.length + mid.length - pre.length = mid.length := by omega
  rw [h, List.take_left]

theorem runMids (ms : List DirectoryEntry) :
    ∀ (pre rest : List Nat) (base : Nat) (es0 : List DirectoryEntry) (acc : List Emit)
      (fuel : Nat),
      (∀ e ∈ ms, WFMid e) → 16 < rest.length →
      scanLoop (pre ++ (midsBytes ms ++ rest)) [] (fuel + ms.length)
          ⟨pre.length, base, es0, false, false⟩ acc =
        scanLoop (pre ++ (midsBytes ms ++ rest)) [] fuel
          ⟨pre.length + 16 * ms.length, base, es0 ++ ms, false, false⟩ acc := by
  induction ms with
  | nil =>
    intro pre rest base es0 acc fuel hwf hrest
    simp [midsBytes_nil]
  | cons e ms ih =>
    intro pre rest base es0 acc fuel hwf hrest
    have hfile : pre ++ (midsBytes (e :: ms) ++ rest)
        = pre ++ (encodeEntry e ++ (midsBytes ms ++ rest)) := by
      rw [midsBytes_cons, List.append_assoc]
    rw [hfile]
    have hread : readDirEntry (pre ++ (encodeEntry e ++ (midsBytes ms ++ rest)))
        pre.length = some e :=
      readDirEntry_encode pre e (hwf e (by simp)).1 (midsBytes ms ++ rest)
    have hlen : (pre ++ (encodeEntry e ++ (midsBytes ms ++ rest))).length
        = pre.length + (16 + (16 * ms.length + rest.length)) := by
      simp [encodeEntry_length, midsBytes_length]
    have hg : ¬ (pre ++ (encodeEntry e ++ (midsBytes ms ++ rest))).length
        ≤ pre.length + 16 + 16 := by
      rw [hlen]
      omega
    have hfuel : fuel + (e :: ms).length = (fuel + ms.length) + 1 := by
      rw [List.length_cons]
      omega
    rw [hfuel, scanLoop_succ,
      scanStep_plain_cont _ [] ⟨pre.length, base, es0, false, false⟩ e hread rfl
        (hwf e (by simp)).2.1 (hwf e (by simp)).2.2 hg]
    show scanLoop _ [] (fuel + ms.length)
        ⟨pre.length + 16, base, es0 ++ [e],
          if matchesFilter [] e = true then false else false, false⟩ (acc ++ []) = _
    rw [List.append_nil]
    simp only [matchesFilter_nil, Bool.false_eq_true, if_false]
    have hpre2 : pre.length + 16 = (pre ++ encodeEntry e).length := by
      simp [encodeEntry_length]
    have hf2 : pre ++ (encodeEntry e ++ (midsBytes ms ++ rest))
        = (pre ++ encodeEntry e) ++ (midsBytes ms ++ rest) := by
      rw [List.append_assoc]
    rw [hpre2, hf2,
      ih (pre ++ encodeEntry e) rest base (es0 ++ [e]) acc fuel
        (fun x hx => hwf x (by simp [hx])) hrest]
    have hstate : (⟨(pre ++ encodeEntry e).length + 16 * ms.length, base,
        (es0 ++ [e]) ++ ms, false, false⟩ : ScanState)
        = ⟨pre.length + 16 * (e :: ms).length, base, es0 ++ (e :: ms), false, false⟩ := by
      have hc : (pre ++ encodeEntry e).length + 16 * ms.length
          = pre.length + 16 * (e :: ms).length := by
        rw [← hpre2, List.length_cons]
        ring
      rw [hc]
      simp
    rw [hstate]


theorem timeEntry_wf : WFEntry timeEntry := by decide

theorem runSeg (sg : Seg) (pre rest : List Nat) (acc : List Emit) (fuel : Nat)
    (hwf : WFSeg sg) (hrest : 16 < rest.length) :
    scanLoop (pre ++ (segBytes sg ++ rest)) [] (fuel + segSteps sg)
        ⟨pre.length, pre.length, [], false, true⟩ acc =
      scanLoop (pre ++ (segBytes sg ++ rest)) [] fuel
        ⟨pre.length + segLen sg, pre.length + segLen sg, [], false, true⟩
        (acc ++ [(segEntries sg, segBytes sg)]) := by
  obtain ⟨hwfm, hslen⟩ := hwf
  have hfile : pre ++ (segBytes sg ++ rest)
      = pre ++ (encodeEntry timeEntry ++ (midsBytes sg.mids ++
          (encodeEntry (nextEntry (segLen sg)) ++ (sg.payload ++ rest)))) := by
    simp [segBytes, List.append_assoc]
  rw [hfile]
  have hflen : (pre ++ (encodeEntry timeEntry ++ (midsBytes sg.mids ++
      (encodeEntry (nextEntry (segLen sg)) ++ (sg.payload ++ rest))))).length
      = pre.length + (16 + (16 * sg.mids.length + (16 + (sg.payload.length
          + rest.length)))) := by
    simp [encodeEntry_length, midsBytes_length]
  have hread0 : readDirEntry (pre ++ (encodeEntry timeEntry ++ (midsBytes sg.mids ++
      (encodeEntry (nextEntry (segLen sg)) ++ (sg.payload ++ rest))))) pre.length
      = some timeEntry :=
    readDirEntry_encode pre timeEntry timeEntry_wf _
  -- step 1: signature match
  have hfuel1 : fuel + segSteps sg = (fuel + (sg.mids.length + 2)) + 1 := by
    rw [segSteps]
    omega
  have hg1 : ¬ (pre ++ (encodeEntry timeEntry ++ (midsBytes sg.mids ++
      (encodeEntry (nextEntry (segLen sg)) ++ (sg.payload ++ rest))))).length
      ≤ pre.length + 16 := by
    rw [hflen]
    omega
  rw [hfuel1, scanLoop_succ,
    scanStep_sig_cont _ [] ⟨pre.length, pre.length, [], false, true⟩ timeEntry hread0
      rfl (by decide) hg1]
  show scanLoop _ [] (fuel + (sg.mids.length + 2))
      ⟨pre.length, pre.length, [] ++ [timeEntry], false, false⟩ (acc ++ []) = _
  -- step 2: the time record is re-read and dispatched
  have hfuel2 : fuel + (sg.mids.length + 2) = (fuel + (sg.mids.length + 1)) + 1 := by
    omega
  have hg2 : ¬ (pre ++ (encodeEntry timeEntry ++ (midsBytes sg.mids ++
      (encodeEntry (nextEntry (segLen sg)) ++ (sg.payload ++ rest))))).length
      ≤ pre.length + 16 + 16 := by
    rw [hflen]
    omega
  rw [hfuel2, scanLoop_succ,
    scanStep_plain_cont _ [] ⟨pre.length, pre.length, [] ++ [timeEntry], false, false⟩
      timeEntry hread0 rfl (by decide) (by decide) hg2]
  show scanLoop _ [] (fuel + (sg.mids.length + 1))
      ⟨pre.length + 16, pre.length, ([] ++ [timeEntry]) ++ [timeEntry],
        if matchesFilter [] timeEntry = true then false else false, false⟩
      ((acc ++ []) ++ []) = _
  simp only [matchesFilter_nil, Bool.false_eq_true, if_false]
  -- the mid entries
  have hpre2 : pre.length + 16 = (pre ++ encodeEntry timeEntry).length := by
    simp [encodeEntry_length]
  have hassoc2 : pre ++ (encodeEntry timeEntry ++ (midsBytes sg.mids ++
      (encodeEntry (nextEntry (segLen sg)) ++ (sg.payload ++ rest))))
      = (pre ++ encodeEntry timeEntry) ++ (midsBytes sg.mids ++
          (encodeEntry (nextEntry (segLen sg)) ++ (sg.payload ++ rest))) := by
    rw [List.append_assoc]
  have hfuel3 : fuel + (sg.mids.length + 1) = (fuel + 1) + sg.mids.length := by omega
  rw [hpre2, hassoc2, hfuel3,
    runMids sg.mids (pre ++ encodeEntry timeEntry)
      (encodeEntry (nextEntry (segLen sg)) ++ (sg.payload ++ rest)) pre.length
      (([] ++ [timeEntry]) ++ [timeEntry]) ((acc ++ []) ++ []) (fuel + 1) hwfm
      (by
        rw [List.length_append, encodeEntry_length, List.length_append]
        omega)]
  -- the NEXT record
  have hpre3 : (pre ++ encodeEntry timeEntry).length + 16 * sg.mids.length
      = ((pre ++ encodeEntry timeEntry) ++ midsBytes sg.mids).length := by
    rw [List.length_append (pre ++ encodeEntry timeEntry), midsBytes_length]
  have hassoc3 : (pre ++ encodeEntry timeEntry) ++ (midsBytes sg.mids ++
      (encodeEntry (nextEntry (segLen sg)) ++ (sg.payload ++ rest)))
      = ((pre ++ encodeEntry timeEntry) ++ midsBytes sg.mids) ++
          (encodeEntry (nextEntry (segLen sg)) ++ (sg.payload ++ rest)) := by
    simp [List.append_assoc]
  have hwfN : WFEntry (nextEntry (segLen sg)) :=
    ⟨(show (999 : Nat) < 65536 by norm_num), hslen,
      (show (0 : Nat) < 65536 by norm_num), (show (0 : Nat) < 65536 by norm_num),
      (show (0 : Nat) < 65536 by norm_num), (show (0 : Nat) < 256 by norm_num),
      (show (0 : Nat) < 256 by norm_num), (show (0 : Nat) < 256 by norm_num),
      (show (0 : Nat) < 256 by norm_num), (show (0 : Nat) < 65536 by norm_num)⟩
  have hreadN : readDirEntry (((pre ++ encodeEntry timeEntry) ++ midsBytes sg.mids) ++
      (encodeEntry (nextEntry (segLen sg)) ++ (sg.payload ++ rest)))
      ((pre ++ encodeEntry timeEntry) ++ midsBytes sg.mids).length
      = some (nextEntry (segLen sg)) :=
    readDirEntry_encode _ _ hwfN _
  have hfuel4 : (fuel + 1) = fuel + 1 := rfl
  rw [hpre3, hassoc3, scanLoop_succ]
  rw [scanStep_next_cont _ []
    ⟨((pre ++ encodeEntry timeEntry) ++ midsBytes sg.mids).length, pre.length,
      (([] ++ [timeEntry]) ++ [timeEntry]) ++ sg.mids, false, false⟩
    (nextEntry (segLen sg)) hreadN rfl rfl ?hguard]
  case hguard =>
    have hl : (((pre ++ encodeEntry timeEntry) ++ midsBytes sg.mids) ++
        (encodeEntry (nextEntry (segLen sg)) ++ (sg.payload ++ rest))).length
        = pre.length + 16 + 16 * sg.mids.length + (16 + (sg.payload.length
            + rest.length)) := by
      simp only [List.length_append, encodeEntry_length, midsBytes_length]
    rw [hl]
    show ¬ _ ≤ pre.length + (nextEntry (segLen sg)).data_offset + 16
    have hoff : (nextEntry (segLen sg)).data_offset = segLen sg := rfl
    rw [hoff, segLen]
    omega
  -- tidy up the resulting state and emit
  have hslice : pySlice (((pre ++ encodeEntry timeEntry) ++ midsBytes sg.mids) ++
      (encodeEntry (nextEntry (segLen sg)) ++ (sg.payload ++ rest)))
      pre.length (pre.length + (nextEntry (segLen sg)).data_offset)
      = segBytes sg := by
    have hoff : (nextEntry (segLen sg)).data_offset = segLen sg := rfl
    have hb : (((pre ++ encodeEntry timeEntry) ++ midsBytes sg.mids) ++
        (encodeEntry (nextEntry (segLen sg)) ++ (sg.payload ++ rest)))
        = pre ++ (segBytes sg ++ rest) := by
      simp [segBytes, List.append_assoc]
    rw [hoff, hb, ← segBytes_length sg, pySlice_exact]
  show scanLoop _ [] fuel
      ⟨pre.length + (nextEntry (segLen sg)).data_offset,
        pre.length + (nextEntry (segLen sg)).data_offset, [],
        if matchesFilter [] (nextEntry (segLen sg)) = true then false
        else !(List.isEmpty []), true⟩
      (((acc ++ []) ++ []) ++
        [(((([] ++ [timeEntry]) ++ [timeEntry]) ++ sg.mids) ++ [nextEntry (segLen sg)],
          pySlice _ pre.length (pre.length + (nextEntry (segLen sg)).data_offset))]) = _
  rw [hslice]
  simp only [matchesFilter_nil, Bool.false_eq_true, if_false, List.isEmpty_nil,
    Bool.not_true, List.nil_append, List.append_nil]
  have hoff : (nextEntry (segLen sg)).data_offset = segLen sg := rfl
  rw [hoff]
  have hentries : (([timeEntry] ++ [timeEntry]) ++ sg.mids) ++ [nextEntry (segLen sg)]
      = segEntries sg := by
    simp [segEntries]
  rw [hentries]


theorem lastEntry_wf : WFEntry lastEntry := by decide

theorem midsBytes_concat (ms : List DirectoryEntry) (e : DirectoryEntry) :
    midsBytes (ms ++ [e]) = midsBytes ms ++ encodeEntry e := by
  simp [midsBytes]

theorem segLen_ge (s : Seg) : 32 ≤ segLen s := by
  rw [segLen]
  omega

theorem runSegs (segs : List Seg) (fin : Seg) :
    ∀ (pre : List Nat) (acc : List Emit) (fuel : Nat),
      (∀ sg ∈ segs, WFSeg sg) →
      scanLoop (pre ++ ((segs.map segBytes).flatten ++ lastSegBytes fin)) []
          (fuel + segsSteps segs) ⟨pre.length, pre.length, [], false, true⟩ acc =
        scanLoop (pre ++ ((segs.map segBytes).flatten ++ lastSegBytes fin)) [] fuel
          ⟨pre.length + ((segs.map segBytes).flatten).length,
            pre.length + ((segs.map segBytes).flatten).length, [], false, true⟩
          (acc ++ segs.map fun sg => (segEntries sg, segBytes sg)) := by
  induction segs with
  | nil =>
    intro pre acc fuel hwf
    simp [segsSteps]
  | cons sg segs ih =>
    intro pre acc fuel hwf
    have hfile : pre ++ (((sg :: segs).map segBytes).flatten ++ lastSegBytes fin)
        = pre ++ (segBytes sg ++ ((segs.map segBytes).flatten ++ lastSegBytes fin)) := by
      simp [List.append_assoc]
    rw [hfile]
    have hfuel : fuel + segsSteps (sg :: segs)
        = (fuel + segsSteps segs) + segSteps sg := by
      have : segsSteps (sg :: segs) = segSteps sg + segsSteps segs := by
        simp [segsSteps]
      rw [this]
      omega
    have hrest : 16 < ((segs.map segBytes).flatten ++ lastSegBytes fin).length := by
      rw [List.length_append, lastSegBytes_length]
      have := segLen_ge fin
      omega
    rw [hfuel,
      runSeg sg pre ((segs.map segBytes).flatten ++ lastSegBytes fin) acc
        (fuel + segsSteps segs) (hwf sg (by simp)) hrest]
    have hpre2 : pre.length + segLen sg = (pre ++ segBytes sg).length := by
      rw [List.length_append, segBytes_length]
    have hassoc2 : pre ++ (segBytes sg ++ ((segs.map segBytes).flatten ++ lastSegBytes fin))
        = (pre ++ segBytes sg) ++ ((segs.map segBytes).flatten ++ lastSegBytes fin) := by
      simp [List.append_assoc]
    rw [hpre2, hassoc2,
      ih (pre ++ segBytes sg) (acc ++ [(segEntries sg, segBytes sg)]) fuel
        (fun x hx => hwf x (by simp [hx]))]
    have hstate : ((pre ++ segBytes sg).length + ((segs.map segBytes).flatten).length)
        = pre.length + (((sg :: segs).map segBytes).flatten).length := by
      simp [segBytes_length, List.length_append]
      omega
    rw [hstate]
    have hacc : (acc ++ [(segEntries sg, segBytes sg)]) ++
        (segs.map fun sg => (segEntries sg, segBytes sg))
        = acc ++ ((sg :: segs).map fun sg => (segEntries sg, segBytes sg)) := by
      simp
    rw [hacc]

theorem runFin (fin : Seg) (pre : List Nat) (acc : List Emit) (fuel : Nat)
    (hwf : WFFin fin) :
    scanLoop (pre ++ lastSegBytes fin) [] (fuel + segSteps fin)
        ⟨pre.length, pre.length, [], false, true⟩ acc =
      .done (acc ++ finEmits fin (lastSegBytes fin)) := by
  have hdrop : (pre ++ lastSegBytes fin).drop pre.length = lastSegBytes fin :=
    List.drop_left pre (lastSegBytes fin)
  have hflen : (pre ++ lastSegBytes fin).length
      = pre.length + (16 * (2 + fin.mids.length) + fin.payload.length) := by
    rw [List.length_append, lastSegBytes_length, segLen]
  have hfile : pre ++ lastSegBytes fin
      = pre ++ (encodeEntry timeEntry ++ (midsBytes fin.mids ++
          (encodeEntry lastEntry ++ fin.payload))) := by
    simp [lastSegBytes, List.append_assoc]
  have hread0 : readDirEntry (pre ++ lastSegBytes fin) pre.length = some timeEntry := by
    rw [hfile]
    exact readDirEntry_encode pre timeEntry timeEntry_wf _
  -- step 1: signature match (the file always retains at least 16 more bytes:
  -- the LAST entry itself)
  have hg1 : ¬ (pre ++ lastSegBytes fin).length ≤ pre.length + 16 := by
    rw [hflen]
    omega
  have hfuel1 : fuel + segSteps fin = (fuel + (fin.mids.length + 2)) + 1 := by
    rw [segSteps]
    omega
  rw [hfuel1, scanLoop_succ,
    scanStep_sig_cont _ [] ⟨pre.length, pre.length, [], false, true⟩ timeEntry hread0
      rfl (by decide) hg1]
  show scanLoop _ [] (fuel + (fin.mids.length + 2))
      ⟨pre.length, pre.length, [] ++ [timeEntry], false, false⟩ (acc ++ []) = _
  by_cases hpl0 : fin.payload.length = 0
  · -- empty final payload: the end-of-file guard fires one dispatch early
    have hpay : fin.payload = [] := List.length_eq_zero.mp hpl0
    rcases List.eq_nil_or_concat fin.mids with hms | ⟨ms, e, hms⟩
    on_goal 2 => rw [List.concat_eq_append] at hms
    · -- no mid entries: the guard fires on the time-record dispatch itself
      have hg2 : (pre ++ lastSegBytes fin).length ≤ pre.length + 16 + 16 := by
        rw [hflen, hms, hpay]
        simp
      have hfuel2 : fuel + (fin.mids.length + 2) = (fuel + (fin.mids.length + 1)) + 1 := by
        omega
      rw [hfuel2, scanLoop_succ,
        scanStep_plain_end _ [] ⟨pre.length, pre.length, [] ++ [timeEntry], false, false⟩
          timeEntry hread0 rfl (by decide) (by decide) hg2]
      show ScanResult.done ((acc ++ []) ++
          [(([] ++ [timeEntry]) ++ [timeEntry], (pre ++ lastSegBytes fin).drop pre.length)]) = _
      rw [hdrop]
      have hemits : finEmits fin (lastSegBytes fin)
          = [(timeEntry :: timeEntry :: fin.mids, lastSegBytes fin)] := by
        rw [finEmits, if_pos hpl0]
      rw [hemits, hms]
      simp
    · -- at least one mid entry: the guard fires on the final mid entry
      have hwfe := hwf e (by rw [hms]; simp)
      have hfile2 : pre ++ lastSegBytes fin
          = (pre ++ encodeEntry timeEntry) ++ (midsBytes ms ++
              (encodeEntry e ++ (encodeEntry lastEntry ++ []))) := by
        rw [hfile, hms, hpay, midsBytes_concat]
        simp [List.append_assoc]
      have hg2 : ¬ (pre ++ lastSegBytes fin).length ≤ pre.length + 16 + 16 := by
        rw [hflen, hms, hpay]
        simp
        omega
      have hfuel2 : fuel + (fin.mids.length + 2) = (fuel + (fin.mids.length + 1)) + 1 := by
        omega
      rw [hfuel2, scanLoop_succ,
        scanStep_plain_cont _ [] ⟨pre.length, pre.length, [] ++ [timeEntry], false, false⟩
          timeEntry hread0 rfl (by decide) (by decide) hg2]
      show scanLoop _ [] (fuel + (fin.mids.length + 1))
          ⟨pre.length + 16, pre.length, ([] ++ [timeEntry]) ++ [timeEntry],
            if matchesFilter [] timeEntry = true then false else false, false⟩
          ((acc ++ []) ++ []) = _
      simp only [matchesFilter_nil, Bool.false_eq_true, if_false]
      have hpre2 : pre.length + 16 = (pre ++ encodeEntry timeEntry).length := by
        rw [List.length_append, encodeEntry_length]
      have hfuel3 : fuel + (fin.mids.length + 1) = (fuel + 2) + ms.length := by
        rw [hms]
        simp
        omega
      rw [hpre2, hfile2, hfuel3,
        runMids ms (pre ++ encodeEntry timeEntry)
          (encodeEntry e ++ (encodeEntry lastEntry ++ [])) pre.length
          (([] ++ [timeEntry]) ++ [timeEntry]) ((acc ++ []) ++ []) (fuel + 2)
          (fun x hx => hwf x (by rw [hms]; simp [hx]))
          (by simp [encodeEntry_length])]
      -- now the final mid entry, on which the end-of-file guard fires
      have hpre3 : (pre ++ encodeEntry timeEntry).length + 16 * ms.length
          = ((pre ++ encodeEntry timeEntry) ++ midsBytes ms).length := by
        rw [List.length_append (pre ++ encodeEntry timeEntry), midsBytes_length]
      have hassoc3 : (pre ++ encodeEntry timeEntry) ++ (midsBytes ms ++
          (encodeEntry e ++ (encodeEntry lastEntry ++ [])))
          = ((pre ++ encodeEntry timeEntry) ++ midsBytes ms) ++
              (encodeEntry e ++ (encodeEntry lastEntry ++ [])) := by
        simp [List.append_assoc]
      have hreade : readDirEntry (((pre ++ encodeEntry timeEntry) ++ midsBytes ms) ++
          (encodeEntry e ++ (encodeEntry lastEntry ++ [])))
          ((pre ++ encodeEntry timeEntry) ++ midsBytes ms).length = some e :=
        readDirEntry_encode _ _ hwfe.1 _
      have hge : (((pre ++ encodeEntry timeEntry) ++ midsBytes ms) ++
          (encodeEntry e ++ (encodeEntry lastEntry ++ []))).length
          ≤ ((pre ++ encodeEntry timeEntry) ++ midsBytes ms).length + 16 + 16 := by
        simp [encodeEntry_length, midsBytes_length]
        omega
      rw [hpre3, hassoc3, scanLoop_succ,
        scanStep_plain_end _ []
          ⟨((pre ++ encodeEntry timeEntry) ++ midsBytes ms).length, pre.length,
            (([] ++ [timeEntry]) ++ [timeEntry]) ++ ms, false, false⟩
          e hreade rfl hwfe.2.1 hwfe.2.2 hge]
      show ScanResult.done (((acc ++ []) ++ []) ++
          [((([] ++ [timeEntry]) ++ [timeEntry]) ++ ms ++ [e],
            (((pre ++ encodeEntry timeEntry) ++ midsBytes ms) ++
              (encodeEntry e ++ (encodeEntry lastEntry ++ []))).drop pre.length)]) = _
      have hback : ((pre ++ encodeEntry timeEntry) ++ midsBytes ms) ++
          (encodeEntry e ++ (encodeEntry lastEntry ++ []))
          = pre ++ lastSegBytes fin := hassoc3.symm.trans hfile2.symm
      rw [hback, hdrop]
      have hemits : finEmits fin (lastSegBytes fin)
          = [(timeEntry :: timeEntry :: fin.mids, lastSegBytes fin)] := by
        rw [finEmits, if_pos hpl0]
      rw [hemits, hms]
      simp
  · -- non-empty final payload: the LAST entry is reached
    have hg2 : ¬ (pre ++ lastSegBytes fin).length ≤ pre.length + 16 + 16 := by
      rw [hflen]
      omega
    have hfuel2 : fuel + (fin.mids.length + 2) = (fuel + (fin.mids.length + 1)) + 1 := by
      omega
    rw [hfuel2, scanLoop_succ,
      scanStep_plain_cont _ [] ⟨pre.length, pre.length, [] ++ [timeEntry], false, false⟩
        timeEntry hread0 rfl (by decide) (by decide) hg2]
    show scanLoop _ [] (fuel + (fin.mids.length + 1))
        ⟨pre.length + 16, pre.length, ([] ++ [timeEntry]) ++ [timeEntry],
          if matchesFilter [] timeEntry = true then false else false, false⟩
        ((acc ++ []) ++ []) = _
    simp only [matchesFilter_nil, Bool.false_eq_true, if_false]
    have hpre2 : pre.length + 16 = (pre ++ encodeEntry timeEntry).length := by
      rw [List.length_append, encodeEntry_length]
    have hfile2 : pre ++ lastSegBytes fin
        = (pre ++ encodeEntry timeEntry) ++ (midsBytes fin.mids ++
            (encodeEntry lastEntry ++ fin.payload)) := by
      rw [hfile]
      simp [List.append_assoc]
    have hfuel3 : fuel + (fin.mids.length + 1) = (fuel + 1) + fin.mids.length := by
      omega
    rw [hpre2, hfile2, hfuel3,
      runMids fin.mids (pre ++ encodeEntry timeEntry)
        (encodeEntry lastEntry ++ fin.payload) pre.length
        (([] ++ [timeEntry]) ++ [timeEntry]) ((acc ++ []) ++ []) (fuel + 1)
        (fun x hx => hwf x hx)
        (by rw [List.length_append, encodeEntry_length]; omega)]
    have hpre3 : (pre ++ encodeEntry timeEntry).length + 16 * fin.mids.length
        = ((pre ++ encodeEntry timeEntry) ++ midsBytes fin.mids).length := by
      rw [List.length_append (pre ++ encodeEntry timeEntry), midsBytes_length]
    have hassoc3 : (pre ++ encodeEntry timeEntry) ++ (midsBytes fin.mids ++
        (encodeEntry lastEntry ++ fin.payload))
        = ((pre ++ encodeEntry timeEntry) ++ midsBytes fin.mids) ++
            (encodeEntry lastEntry ++ fin.payload) := by
      simp [List.append_assoc]
    have hreadL : readDirEntry (((pre ++ encodeEntry timeEntry) ++ midsBytes fin.mids) ++
        (encodeEntry lastEntry ++ fin.payload))
        ((pre ++ encodeEntry timeEntry) ++ midsBytes fin.mids).length
        = some lastEntry :=
      readDirEntry_encode _ _ lastEntry_wf _
    have hlen3 : (((pre ++ encodeEntry timeEntry) ++ midsBytes fin.mids) ++
        (encodeEntry lastEntry ++ fin.payload)).length
        = ((pre ++ encodeEntry timeEntry) ++ midsBytes fin.mids).length
            + (16 + fin.payload.length) := by
      simp [encodeEntry_length]
      omega
    have hback : ((pre ++ encodeEntry timeEntry) ++ midsBytes fin.mids) ++
        (encodeEntry lastEntry ++ fin.payload) = pre ++ lastSegBytes fin :=
      hassoc3.symm.trans hfile2.symm
    rw [hpre3, hassoc3]
    by_cases hple : fin.payload.length ≤ 16
    · -- 1 ≤ payload ≤ 16: the LAST branch yields and the guard yields again
      have hg3 : (((pre ++ encodeEntry timeEntry) ++ midsBytes fin.mids) ++
          (encodeEntry lastEntry ++ fin.payload)).length
          ≤ ((pre ++ encodeEntry timeEntry) ++ midsBytes fin.mids).length + 16 + 16 := by
        rw [hlen3]
        omega
      rw [scanLoop_succ,
        scanStep_last_end _ []
          ⟨((pre ++ encodeEntry timeEntry) ++ midsBytes fin.mids).length, pre.length,
            (([] ++ [timeEntry]) ++ [timeEntry]) ++ fin.mids, false, false⟩
          lastEntry hreadL rfl rfl hg3]
      show ScanResult.done (((acc ++ []) ++ []) ++
          [((([] ++ [timeEntry]) ++ [timeEntry]) ++ fin.mids ++ [lastEntry],
              (((pre ++ encodeEntry timeEntry) ++ midsBytes fin.mids) ++
                (encodeEntry lastEntry ++ fin.payload)).drop pre.length),
           ((([] ++ [timeEntry]) ++ [timeEntry]) ++ fin.mids ++ [lastEntry],
              (((pre ++ encodeEntry timeEntry) ++ midsBytes fin.mids) ++
                (encodeEntry lastEntry ++ fin.payload)).drop pre.length)]) = _
      rw [hback, hdrop]
      have hemits : finEmits fin (lastSegBytes fin)
          = [(lastSegEntries fin, lastSegBytes fin),
             (lastSegEntries fin, lastSegBytes fin)] := by
        rw [finEmits, if_neg hpl0, if_pos hple]
      rw [hemits]
      simp [lastSegEntries]
    · -- payload > 16: a single yield from the LAST branch
      have hg3 : ¬ (((pre ++ encodeEntry timeEntry) ++ midsBytes fin.mids) ++
          (encodeEntry lastEntry ++ fin.payload)).length
          ≤ ((pre ++ encodeEntry timeEntry) ++ midsBytes fin.mids).length + 16 + 16 := by
        rw [hlen3]
        omega
      rw [scanLoop_succ,
        scanStep_last_cont _ []
          ⟨((pre ++ encodeEntry timeEntry) ++ midsBytes fin.mids).length, pre.length,
            (([] ++ [timeEntry]) ++ [timeEntry]) ++ fin.mids, false, false⟩
          lastEntry hreadL rfl rfl hg3]
      show ScanResult.done (((acc ++ []) ++ []) ++
          [((([] ++ [timeEntry]) ++ [timeEntry]) ++ fin.mids ++ [lastEntry],
              (((pre ++ encodeEntry timeEntry) ++ midsBytes fin.mids) ++
                (encodeEntry lastEntry ++ fin.payload)).drop pre.length)]) = _
      rw [hback, hdrop]
      have hemits : finEmits fin (lastSegBytes fin)
          = [(lastSegEntries fin, lastSegBytes fin)] := by
        rw [finEmits, if_neg hpl0, if_neg (by omega : ¬ fin.payload.length ≤ 16)]
      rw [hemits]
      simp [lastSegEntries]


/-- C2 (amended): for every synthetic file laid out as well-formed
`NEXT`-terminated segments (each a time record, mid records, payload absorbed
into the `NEXT` entry's `data_offset`) followed by a final `LAST`-terminated
segment, the scanner emits one buffer per `NEXT`-terminated segment in stream
order, but the final segment produces ONE buffer only when its payload is
empty (the end-of-file guard fires before the `LAST` entry is dispatched) or
longer than 16 bytes; when `1 ≤ payload length ≤ 16` the final buffer is
emitted TWICE (once by the `LAST` branch and once more by the end-of-file
guard), so the total count is the segment count plus one except in that
duplicate case, where it is the segment count plus two. -/
theorem raw_buffers_segment_emits (segs : List Seg) (fin : Seg)
    (hsegs : ∀ sg ∈ segs, WFSeg sg) (hfin : WFFin fin) :
    rawBuffers (mkFile segs fin) [] (segsSteps segs + segSteps fin)
        = .done ((segs.map fun sg => (segEntries sg, segBytes sg)) ++
            finEmits fin (lastSegBytes fin)) ∧
      ((segs.map fun sg => (segEntries sg, segBytes sg)) ++
          finEmits fin (lastSegBytes fin)).length
        = segs.length +
            (if fin.payload.length = 0 ∨ 16 < fin.payload.length then 1 else 2) := by
  constructor
  · show scanLoop (([] : List Nat) ++ ((segs.map segBytes).flatten ++ lastSegBytes fin))
        [] (segsSteps segs + segSteps fin)
        ⟨([] : List Nat).length, ([] : List Nat).length, [], false, true⟩ [] = _
    have hfuel : segsSteps segs + segSteps fin = segSteps fin + segsSteps segs := by
      omega
    rw [hfuel, runSegs segs fin [] [] (segSteps fin) hsegs]
    have h0 : ([] : List Nat).length + ((segs.map segBytes).flatten).length
        = ((segs.map segBytes).flatten).length := by
      simp
    rw [h0]
    have hnil : ([] : List Nat) ++ ((segs.map segBytes).flatten ++ lastSegBytes fin)
        = (segs.map segBytes).flatten ++ lastSegBytes fin := List.nil_append _
    rw [hnil]
    have hfuel2 : segSteps fin = 0 + segSteps fin := by
      omega
    rw [hfuel2,
      runFin fin ((segs.map segBytes).flatten)
        ([] ++ segs.map fun sg => (segEntries sg, segBytes sg)) 0 hfin]
    simp
  · by_cases hp0 : fin.payload.length = 0
    · rw [finEmits, if_pos hp0, if_pos (Or.inl hp0)]
      simp
    · by_cases hple : fin.payload.length ≤ 16
      · rw [finEmits, if_neg hp0, if_pos hple,
          if_neg (by omega : ¬ (fin.payload.length = 0 ∨ 16 < fin.payload.length))]
        simp
      · rw [finEmits, if_neg hp0, if_neg hple, if_pos (Or.inr (by omega))]
        simp

theorem raw_buffers_segment_emits_witness :
    (∀ sg ∈ [c2seg], WFSeg sg) ∧ WFFin c2fin ∧
      rawBuffers (mkFile [c2seg] c2fin) [] (segsSteps [c2seg] + segSteps c2fin)
        = .done (([c2seg].map fun sg => (segEntries sg, segBytes sg)) ++
            finEmits c2fin (lastSegBytes c2fin)) :=
  ⟨by decide, by decide,
    (raw_buffers_segment_emits [c2seg] c2fin (by decide) (by decide)).1⟩

/-- C2 counterexample to the original claim: `c2File` has one
`NEXT`-terminated segment and a final `LAST` segment with an 8-byte payload,
so the original claim predicts exactly 2 emitted buffers; the scanner emits
3, the last two identical (the `LAST` buffer is yielded again by the
end-of-file guard). -/
theorem raw_buffers_duplicate_final_emission :
    rawBuffers c2File [] 60 = .done
      [(segEntries c2seg, segBytes c2seg),
       (lastSegEntries c2fin, lastSegBytes c2fin),
       (lastSegEntries c2fin, lastSegBytes c2fin)] ∧
    ([(segEntries c2seg, segBytes c2seg),
      (lastSegEntries c2fin, lastSegBytes c2fin),
      (lastSegEntries c2fin, lastSegBytes c2fin)] : List Emit).length ≠ 1 + 1 :=
  ⟨by decide, by decide⟩


theorem addMatched_no_match (raw : List Nat) (b : Buffer) (d : DirectoryEntry)
    (fl : Filters) (h : matchesFilter fl d = false) : addMatched raw b d fl = b := by
  induction fl generalizing b with
  | nil => rfl
  | cons p rest ih =>
    obtain ⟨a, vs⟩ := p
    have h2 : vs.contains (getAttr d a) = false ∧ matchesFilter rest d = false := by
      simpa [matchesFilter] using h
    simp only [addMatched, h2.1, Bool.false_eq_true, if_false]
    exact ih b h2.2

theorem filterAdds_ok (e : DirectoryEntry) (raw : List Nat)
    (hdec : ∃ p, readDataset e raw = Except.ok p) (fl : Filters) (b : Buffer) :
    filterAdds e raw fl b = .ok (addMatched raw b e fl, matchesFilter fl e) := by
  rcases hdec with ⟨q, hd⟩
  obtain ⟨ws, ints⟩ := q
  have hv : datasetValsOf e raw = ints := by rw [datasetValsOf, hd]
  induction fl generalizing b with
  | nil => rfl
  | cons p rest ih =>
    obtain ⟨a, vs⟩ := p
    by_cases hm : vs.contains (getAttr e a) = true
    · simp only [filterAdds, hm, if_true, hd, ih, addMatched, hv, matchesFilter,
        List.any_cons, Bool.true_or]
    · have hmf : vs.contains (getAttr e a) = false := by
        rwa [Bool.not_eq_true] at hm
      simp only [filterAdds, hmf, Bool.false_eq_true, if_false, ih, addMatched,
        matchesFilter, List.any_cons, Bool.false_or]

theorem processEntries_plain (fl : Filters) (sec raw : List Nat)
    (es : List DirectoryEntry) (nx : DirectoryEntry) (b : Buffer) (discard : Bool)
    (hfl : fl ≠ [])
    (hplain : ∀ e ∈ es, plainData sec e)
    (hdec : ∀ e ∈ es, ∃ p, readDataset e raw = Except.ok p)
    (hnx : nx.tag_number = 999) :
    processEntries fl sec raw (es ++ [nx]) b discard =
      .ok ((if discard && !(es.any (matchesFilter fl)) then none
            else some (es.foldl (fun b e => addMatched raw b e fl) b)),
           false) := by
  have hfe : fl.isEmpty = false := by
    cases fl with
    | nil => exact absurd rfl hfl
    | cons p rest => rfl
  induction es generalizing b discard with
  | nil =>
    simp only [List.nil_append, processEntries, hnx]
    norm_num
  | cons e es ih =>
    have hp := hplain e (by simp)
    obtain ⟨h0, h999, hlt, hsec⟩ := hp
    have hA : ¬ (65000 ≤ e.tag_number ∧ e.tag_number ≤ 65529) := by omega
    have hB : ¬ (e.tag_number = 65530 ∨ e.tag_number = 65531) := by omega
    have hC : ¬ (e.tag_number = 65532 ∨ e.tag_number = 65533 ∨
        e.tag_number = 65534) := by omega
    have hD : ¬ e.tag_number = 65535 := by omega
    show processEntries fl sec raw (e :: (es ++ [nx])) b discard = _
    rw [processEntries]
    rw [if_neg h0, if_neg h999, if_neg hA, if_neg hB, if_neg hC, if_neg hD,
      if_neg (by rw [hsec]; exact Bool.false_ne_true), if_neg (by
        rw [hfe]; exact Bool.false_ne_true),
      filterAdds_ok e raw (hdec e (by simp)) fl b]
    show processEntries fl sec raw (es ++ [nx]) (addMatched raw b e fl)
        (if matchesFilter fl e = true then false else discard) = _
    rw [ih _ _ (fun x hx => hplain x (by simp [hx])) (fun x hx => hdec x (by simp [hx]))]
    cases hm : matchesFilter fl e <;> simp [hm]


/-- C5 (amended): under a non-empty filter the scanner starts with
`drop_buffer` set; in `iter_buffers` a buffer of ordinary data records is
kept exactly when some record matches some `(attribute, value)` constraint;
the resulting buffer is built by one `add_dataset` per **matching
constraint** of each **matching record only** — a record matching no
constraint is never decoded and leaves the buffer unchanged, even inside a
kept buffer (contrary to the original claim that every data record of a
kept buffer is fully decoded). -/
theorem filter_keeps_only_matching (fl : Filters) (sec raw : List Nat)
    (es : List DirectoryEntry) (nx : DirectoryEntry)
    (hfl : fl ≠ [])
    (hplain : ∀ e ∈ es, plainData sec e)
    (hdec : ∀ e ∈ es, ∃ p, readDataset e raw = Except.ok p)
    (hnx : nx.tag_number = 999) :
    (initState fl).dropBuffer = true ∧
    processEntries fl sec raw (es ++ [nx]) {} (!fl.isEmpty) =
      .ok ((if es.any (matchesFilter fl) then
            some (es.foldl (fun b e => addMatched raw b e fl) {}) else none),
           false) ∧
    ∀ d b, matchesFilter fl d = false → addMatched raw b d fl = b := by
  have hfe : fl.isEmpty = false := by
    cases fl with
    | nil => exact absurd rfl hfl
    | cons p rest => rfl
  refine ⟨by simp [initState, hfe], ?_, fun d b h => addMatched_no_match raw b d fl h⟩
  rw [processEntries_plain fl sec raw es nx {} (!fl.isEmpty) hfl hplain hdec hnx, hfe]
  cases hany : es.any (matchesFilter fl) <;> simp

theorem filter_keeps_only_matching_witness :
    (initState fl5).dropBuffer = true ∧
    processEntries fl5 [] (segBytes c5seg1)
        ([tag7e, tag8e] ++ [nextEntry (segLen c5seg1)]) {} (!fl5.isEmpty) =
      .ok ((if [tag7e, tag8e].any (matchesFilter fl5) then
            some ([tag7e, tag8e].foldl
              (fun b e => addMatched (segBytes c5seg1) b e fl5) {}) else none),
           false) ∧
    ∀ d b, matchesFilter fl5 d = false →
      addMatched (segBytes c5seg1) b d fl5 = b :=
  filter_keeps_only_matching fl5 [] (segBytes c5seg1) [tag7e, tag8e]
    (nextEntry (segLen c5seg1)) (by decide) (by decide)
    (by
      intro e he
      rcases (by simpa using he : e = tag7e ∨ e = tag8e) with rfl | rfl
      · exact ⟨([], [5]), rfl⟩
      · exact ⟨([], [9]), rfl⟩)
    rfl

/-- C5 counterexample to the original claim: on `file5` with filter
`{tag_number: {7}}` the first buffer is kept (record `tag7e` matches), the
second (no match) is dropped by the scanner itself, and in the kept buffer
the non-matching data record `tag8e` — although among the buffer's
directory records — is never decoded: neither tag-8 entry nor tag-8 dataset
exists in the yielded `Buffer`, refuting "every data record of a kept
buffer is fully decoded". -/
theorem filter_nonmatching_record_not_decoded :
    rawBuffers file5 fl5 60 =
      .done [(segEntries c5seg1, segBytes c5seg1),
             (lastSegEntries c5fin, lastSegBytes c5fin)] ∧
    iterBuffers file5 fl5 [] 60 = some (.ok c5List) ∧
    c5List.length = 1 ∧
    tag8e ∈ segEntries c5seg1 ∧
    (c5List.headD {}).get_dataset_by_tag_number 7 = some (.ints [5]) ∧
    (c5List.headD {}).get_dir_entry_by_tag_number 8 = none ∧
    (c5List.headD {}).get_dataset_by_tag_number 8 = none := by
  refine ⟨by decide, rfl, by decide, by decide, by decide, by decide, by decide⟩

end Spifpy
